import Mathlib

/-
  Verification of the TerraDataModel codec from terra-client-python
  (src/terra/models/base_model.py).

  The Python values that flow through the codec are embedded as the
  inductive type `Val`:
    * the primitive runtime types from `PRIMITIVES = (str, int, bool,
      float, type(None), dict)` become the constructors `str`, `int`,
      `bool`, `float` (with an uninterpreted bit payload; the codec never
      computes with floats, it only classifies and copies them), `none`
      and `dict`;
    * `enum.IntEnum` members become `enum` (carrying the member's integer
      value);
    * Python lists become `list`;
    * a `TerraDataModel` instance becomes `model cname defaults ftypes
      fields`: `cname` is the instance's fully qualified class name
      (class identity), `defaults` are the field values a fresh `cls()`
      carries (the dataclass defaults), `ftypes` is the per-class
      dataclass field-name -> declared-type-string table
      (`dataclasses.fields`), and `fields` are the instance's current
      attribute values.

  Mappings (`dict` payloads and instance attribute sets) are the
  flattened association list `Fields`; Python lists are `ValList`.

  `pydoc.locate` is embedded as a lookup in an explicit `Catalog`
  parameter mapping a fully qualified name to a class.

  Exceptions are embedded with `Except PyErr`: `attributeError` for
  `getattr` misses, missing `.items()` and missing `.to_dict()`;
  `keyError` for the `z[k]` metadata lookup; `indexError` for
  `.split("[")[1]` on a bracketless type string; `typeError` for calling
  the result of a failed `pydoc.locate` (None is not callable).
-/

set_option maxHeartbeats 1000000

namespace Terra

mutual

inductive Val where
  | none
  | str (s : String)
  | int (n : Int)
  | bool (b : Bool)
  | float (bits : Nat)
  | enum (n : Int)
  | dict (m : Fields)
  | list (xs : ValList)
  | model (cname : String) (defaults : Fields) (ftypes : List (String × String)) (fields : Fields)

inductive ValList where
  | nil
  | cons (hd : Val) (tl : ValList)

inductive Fields where
  | nil
  | cons (key : String) (val : Val) (tl : Fields)

end

deriving instance DecidableEq for Val

deriving instance DecidableEq for ValList

deriving instance DecidableEq for Fields

deriving instance DecidableEq for Except

/-- A Python model class: its qualified name, the attribute values of a
fresh `cls()` (dataclass defaults), and the `dataclasses.fields` name ->
declared-type-string table. -/
structure PyClass where
  name : String
  defaults : Fields
  ftypes : List (String × String)

/-- The global namespace consulted by `pydoc.locate`: qualified name ->
class. -/
def Catalog := List (String × PyClass)

/-- The exception classes the codec can raise. -/
inductive PyErr where
  | attributeError (attr : String)
  | keyError (key : String)
  | indexError
  | typeError
  deriving DecidableEq

/-- `getattr`/instance attribute lookup on the flattened attribute list
(first occurrence wins, as in a Python namespace). -/
def lookupF : Fields → String → Option Val
  | Fields.nil, _ => Option.none
  | Fields.cons k v tl, key => if k = key then some v else lookupF tl key

/-- `setattr`: replace the value at an existing attribute, or append a
new attribute. -/
def setattrF : Fields → String → Val → Fields
  | Fields.nil, key, v => Fields.cons key v Fields.nil
  | Fields.cons k w tl, key, v =>
      if k = key then Fields.cons k v tl else Fields.cons k w (setattrF tl key v)

/-- The attribute names, in attribute order. -/
def keysF : Fields → List String
  | Fields.nil => []
  | Fields.cons k _ tl => k :: keysF tl

/-- Lookup in the `dataclasses.fields` name -> type-string table
(`z[k]` in the source). -/
def lookupT : List (String × String) → String → Option String
  | [], _ => Option.none
  | (a, b) :: tl, key => if a = key then some b else lookupT tl key

/-- `pydoc.locate`: resolve a qualified name in the global catalog;
`Option.none` models locate returning `None`. -/
def catLookup : Catalog → String → Option PyClass
  | [], _ => Option.none
  | (a, c) :: tl, key => if a = key then some c else catLookup tl key

/-- `isinstance(x, TerraDataModel)`. -/
def isModelB : Val → Bool
  | Val.model _ _ _ _ => true
  | _ => false

/-- `isinstance(x, list)`. -/
def isListB : Val → Bool
  | Val.list _ => true
  | _ => false

/-- `x in [None, []]` — Python `==` against `None` and the empty list
only holds for `None` itself and an empty list. -/
def isNoneOrEmptyList : Val → Bool
  | Val.none => true
  | Val.list ValList.nil => true
  | _ => false

/-- `type(x) in PRIMITIVES` — exact runtime type membership in
`(str, int, bool, float, type(None), dict)`; an `IntEnum` member, a list
and a model are not in it. -/
def isPrimitiveType : Val → Bool
  | Val.str _ => true
  | Val.int _ => true
  | Val.bool _ => true
  | Val.float _ => true
  | Val.none => true
  | Val.dict _ => true
  | _ => false

/-- The `to_dict` list guard `(attr_val and type(attr_val[0]) in
PRIMITIVES) or not attr_val`: empty, or the first element has a
primitive runtime type. -/
def isEmptyOrPrimHead : ValList → Bool
  | ValList.nil => true
  | ValList.cons h _ => isPrimitiveType h

/-- Helper for `pySplit`: scan the remaining characters, accumulating
the current chunk in reverse. -/
def splitCharAux (c : Char) : List Char → List Char → List String
  | [], cur => [String.mk cur.reverse]
  | x :: rest, cur =>
      if x = c then String.mk cur.reverse :: splitCharAux c rest []
      else splitCharAux c rest (x :: cur)

/-- Python `s.split(sep)` for a one-character separator (the source only
ever splits on `"["`, `"]"` and `"."`): cut at every occurrence, keeping
empty chunks, `"".split(sep) == [""]`. -/
def pySplit (c : Char) (s : String) : List String :=
  splitCharAux c s.data []

/-- `str(z[k]).split("[")[1].split("]")[0]`: the substring of the
declared type string between the first `[` and the following `]`;
`Option.none` models the `IndexError` raised when the string has no
`[`. -/
def elemTypeName (t : String) : Option String :=
  match (pySplit '[' t).get? 1 with
  | Option.none => Option.none
  | some piece => some ((pySplit ']' piece).headD piece)

/-- `if current_field_name.split(".")[0] == "models": current_field_name
= "terra." + current_field_name`. -/
def qualify (s : String) : String :=
  if (pySplit '.' s).headD "" == "models" then "terra." ++ s else s

/-- `current_field_name.split(".")[0] == "terra"`. -/
def isTerra (s : String) : Bool :=
  (pySplit '.' s).headD "" == "terra"

mutual

/-- `TerraDataModel.from_dict(cls, model_dict, safe)`.  `model_dict` is
dict-like: a `dict` or a model (both have `.items()`); anything else
raises `AttributeError` at `.items()`.  The result is a fresh `cls()`
instance whose attributes have been updated by the loop. -/
def from_dict (cat : Catalog) (cls : PyClass) (v : Val) (safe : Bool) : Except PyErr Val :=
  match v with
  | Val.dict m =>
      match fromDictLoop cat cls m safe cls.defaults with
      | Except.ok fs => Except.ok (Val.model cls.name cls.defaults cls.ftypes fs)
      | Except.error e => Except.error e
  | Val.model _ _ _ mfs =>
      match fromDictLoop cat cls mfs safe cls.defaults with
      | Except.ok fs => Except.ok (Val.model cls.name cls.defaults cls.ftypes fs)
      | Except.error e => Except.error e
  | _ => Except.error (PyErr.attributeError "items")

/-- The `for k, v in model_dict.items()` loop of `from_dict`, threading
the instance's attribute state.  Mirrors the source: `getattr` with the
`"NOT_FOUND"` sentinel default when `safe`; the eligibility test
`inner_item in [None, []] or isinstance(inner_item, TerraDataModel) or
isinstance(v, list)`; the nested-model branch `v = inner_item.from_dict(v)`
(a classmethod call on the existing value's class, with `safe` defaulted
to `False`); the list branch with the `z[k]` metadata lookup, element
type extraction, `models.` -> `terra.models.` qualification, and
per-element strict decoding when the qualified name is in the `terra`
namespace.  (After the nested-model branch the rebound `v` is a model,
never a list, so the source's subsequent `isinstance(v, list)` test is
vacuous there; the two branches are therefore written disjointly.) -/
def fromDictLoop (cat : Catalog) (cls : PyClass) (entries : Fields) (safe : Bool) (fields : Fields) : Except PyErr Fields :=
  match entries with
  | Fields.nil => Except.ok fields
  | Fields.cons k v tl =>
      match lookupF fields k, safe with
      | Option.none, false => Except.error (PyErr.attributeError k)
      | found, _ =>
          let inner := found.getD (Val.str "NOT_FOUND")
          if isNoneOrEmptyList inner || isModelB inner || isListB v then
            match inner with
            | Val.model cn dfs fts _ =>
                match from_dict cat (PyClass.mk cn dfs fts) v false with
                | Except.ok v2 => fromDictLoop cat cls tl safe (setattrF fields k v2)
                | Except.error e => Except.error e
            | _ =>
                match v with
                | Val.list ValList.nil =>
                    fromDictLoop cat cls tl safe (setattrF fields k (Val.list ValList.nil))
                | Val.list (ValList.cons h ht) =>
                    match lookupT cls.ftypes k with
                    | Option.none => Except.error (PyErr.keyError k)
                    | some t =>
                        match elemTypeName t with
                        | Option.none => Except.error PyErr.indexError
                        | some nm =>
                            let cfn := qualify nm
                            if isTerra cfn then
                              match catLookup cat cfn with
                              | Option.none => Except.error PyErr.typeError
                              | some icls =>
                                  match fromDictEach cat icls (ValList.cons h ht) with
                                  | Except.ok xs2 =>
                                      fromDictLoop cat cls tl safe (setattrF fields k (Val.list xs2))
                                  | Except.error e => Except.error e
                            else
                              fromDictLoop cat cls tl safe (setattrF fields k (Val.list (ValList.cons h ht)))
                | _ => fromDictLoop cat cls tl safe (setattrF fields k v)
          else
            fromDictLoop cat cls tl safe fields

/-- The `for inner_dict in v` element loop of `from_dict`'s list branch:
each element is decoded strictly into a fresh instance of the located
class, with `safe` defaulted to `False`. -/
def fromDictEach (cat : Catalog) (icls : PyClass) (xs : ValList) : Except PyErr ValList :=
  match xs with
  | ValList.nil => Except.ok ValList.nil
  | ValList.cons d ds =>
      match from_dict cat icls d false with
      | Except.ok x =>
          match fromDictEach cat icls ds with
          | Except.ok rest => Except.ok (ValList.cons x rest)
          | Except.error e => Except.error e
      | Except.error e => Except.error e

end

mutual

/-- `TerraDataModel.from_dict_api(cls, model_dict, safe)`: the
permissive decode.  Same structure as `from_dict` but its eligibility
test is only `inner_item in [None, []] or isinstance(inner_item,
TerraDataModel)` (no `isinstance(v, list)` disjunct), and it performs no
metadata lookup: lists are assigned as-is. -/
def from_dict_api (cls : PyClass) (v : Val) (safe : Bool) : Except PyErr Val :=
  match v with
  | Val.dict m =>
      match fromDictApiLoop cls m safe cls.defaults with
      | Except.ok fs => Except.ok (Val.model cls.name cls.defaults cls.ftypes fs)
      | Except.error e => Except.error e
  | Val.model _ _ _ mfs =>
      match fromDictApiLoop cls mfs safe cls.defaults with
      | Except.ok fs => Except.ok (Val.model cls.name cls.defaults cls.ftypes fs)
      | Except.error e => Except.error e
  | _ => Except.error (PyErr.attributeError "items")

/-- The `for k, v in model_dict.items()` loop of `from_dict_api`.  The
nested-model branch is `v = inner_item.from_dict_api(v)`, again a
classmethod call on the existing value's class with `safe` defaulted to
`False`. -/
def fromDictApiLoop (cls : PyClass) (entries : Fields) (safe : Bool) (fields : Fields) : Except PyErr Fields :=
  match entries with
  | Fields.nil => Except.ok fields
  | Fields.cons k v tl =>
      match lookupF fields k, safe with
      | Option.none, false => Except.error (PyErr.attributeError k)
      | found, _ =>
          let inner := found.getD (Val.str "NOT_FOUND")
          if isNoneOrEmptyList inner || isModelB inner then
            match inner with
            | Val.model cn dfs fts _ =>
                match from_dict_api (PyClass.mk cn dfs fts) v false with
                | Except.ok v2 => fromDictApiLoop cls tl safe (setattrF fields k v2)
                | Except.error e => Except.error e
            | _ => fromDictApiLoop cls tl safe (setattrF fields k v)
          else
            fromDictApiLoop cls tl safe fields

end

/-- `TerraDataModel.populate_from_dict(self, model_dict, safe)`: for
each `(k, v)` set the attribute only when `getattr(self, k, ...) is
None` (identity with `None`; the `"NOT_FOUND"` sentinel and every other
value fail the test).  The updated attribute state of `self` is
returned. -/
def populate_from_dict (fields : Fields) (entries : Fields) (safe : Bool) : Except PyErr Fields :=
  match entries with
  | Fields.nil => Except.ok fields
  | Fields.cons k v tl =>
      match lookupF fields k, safe with
      | Option.none, false => Except.error (PyErr.attributeError k)
      | found, _ =>
          match found.getD (Val.str "NOT_FOUND") with
          | Val.none => populate_from_dict (setattrF fields k v) tl safe
          | _ => populate_from_dict fields tl safe

mutual

/-- `TerraDataModel.to_dict(self)`: the attribute loop, producing the
output mapping in attribute order. -/
def to_dict (fields : Fields) : Except PyErr Fields :=
  match fields with
  | Fields.nil => Except.ok Fields.nil
  | Fields.cons k val tl =>
      match encodeAttr val with
      | Except.ok e =>
          match to_dict tl with
          | Except.ok rest => Except.ok (Fields.cons k e rest)
          | Except.error err => Except.error err
      | Except.error err => Except.error err

/-- The body of `to_dict`'s loop, classifying one attribute value:
an `IntEnum` member becomes its integer; an exact-primitive-typed value
passes through; a list passes through when empty or primitive-headed and
is otherwise encoded element-wise; anything else gets `.to_dict()`
(which only a model has). -/
def encodeAttr : Val → Except PyErr Val
  | Val.enum n => Except.ok (Val.int n)
  | Val.none => Except.ok Val.none
  | Val.str s => Except.ok (Val.str s)
  | Val.int n => Except.ok (Val.int n)
  | Val.bool b => Except.ok (Val.bool b)
  | Val.float x => Except.ok (Val.float x)
  | Val.dict m => Except.ok (Val.dict m)
  | Val.list xs =>
      if isEmptyOrPrimHead xs then Except.ok (Val.list xs)
      else
        match encodeElems xs with
        | Except.ok ds => Except.ok (Val.list ds)
        | Except.error e => Except.error e
  | Val.model _ _ _ mfs =>
      match to_dict mfs with
      | Except.ok d => Except.ok (Val.dict d)
      | Except.error e => Except.error e

/-- `[item.to_dict() for item in attr_val]`: only a model has
`.to_dict()`; a primitive, enum, list or dict element raises
`AttributeError`. -/
def encodeElems : ValList → Except PyErr ValList
  | ValList.nil => Except.ok ValList.nil
  | ValList.cons x xs =>
      match x with
      | Val.model _ _ _ mfs =>
          match to_dict mfs with
          | Except.ok d =>
              match encodeElems xs with
              | Except.ok rest => Except.ok (ValList.cons (Val.dict d) rest)
              | Except.error e => Except.error e
          | Except.error e => Except.error e
      | _ => Except.error (PyErr.attributeError "to_dict")

end

mutual

/-- Heap-faithful state-threaded rendering of `to_dict`: alongside the
output mapping it returns the attribute state of `self` after the call.
Python mutation of a nested object would be visible through the parent
(aliasing), so each recursive call's resulting object state is
reinstalled in the parent's state; `to_dict` itself contains no
attribute write, which is what the frame theorem below establishes. -/
def to_dictS (fields : Fields) : Except PyErr (Fields × Fields) :=
  match fields with
  | Fields.nil => Except.ok (Fields.nil, Fields.nil)
  | Fields.cons k val tl =>
      match encodeAttrS val with
      | Except.ok (e, val2) =>
          match to_dictS tl with
          | Except.ok (rest, tl2) => Except.ok (Fields.cons k e rest, Fields.cons k val2 tl2)
          | Except.error err => Except.error err
      | Except.error err => Except.error err

/-- State-threaded rendering of `encodeAttr`: returns the encoded value
and the attribute value's object state after encoding it. -/
def encodeAttrS : Val → Except PyErr (Val × Val)
  | Val.enum n => Except.ok (Val.int n, Val.enum n)
  | Val.none => Except.ok (Val.none, Val.none)
  | Val.str s => Except.ok (Val.str s, Val.str s)
  | Val.int n => Except.ok (Val.int n, Val.int n)
  | Val.bool b => Except.ok (Val.bool b, Val.bool b)
  | Val.float x => Except.ok (Val.float x, Val.float x)
  | Val.dict m => Except.ok (Val.dict m, Val.dict m)
  | Val.list xs =>
      if isEmptyOrPrimHead xs then Except.ok (Val.list xs, Val.list xs)
      else
        match encodeElemsS xs with
        | Except.ok (ds, xs2) => Except.ok (Val.list ds, Val.list xs2)
        | Except.error e => Except.error e
  | Val.model cn dfs fts mfs =>
      match to_dictS mfs with
      | Except.ok (d, mfs2) => Except.ok (Val.dict d, Val.model cn dfs fts mfs2)
      | Except.error e => Except.error e

/-- State-threaded rendering of `encodeElems`. -/
def encodeElemsS : ValList → Except PyErr (ValList × ValList)
  | ValList.nil => Except.ok (ValList.nil, ValList.nil)
  | ValList.cons x xs =>
      match x with
      | Val.model cn dfs fts mfs =>
          match to_dictS mfs with
          | Except.ok (d, mfs2) =>
              match encodeElemsS xs with
              | Except.ok (rest, xs2) =>
                  Except.ok (ValList.cons (Val.dict d) rest,
                             ValList.cons (Val.model cn dfs fts mfs2) xs2)
              | Except.error e => Except.error e
          | Except.error e => Except.error e
      | _ => Except.error (PyErr.attributeError "to_dict")

end

mutual

/-- Python `==` between runtime values, as the codec's clients observe
it: numeric cross-type equality between `int`, `bool` and `IntEnum`
members; element-wise equality on lists; dataclass equality on models
(same class, then field-by-field).  Opaque maps are compared entry-wise
in order (the codec only ever copies them whole, so the order-sensitive
comparison is exact on everything the codec produces), and floats by
their uninterpreted payload. -/
def pyEq : Val → Val → Bool
  | Val.none, Val.none => true
  | Val.str a, Val.str b => a == b
  | Val.int a, Val.int b => a == b
  | Val.bool a, Val.bool b => a == b
  | Val.bool a, Val.int b => (if a then (1 : Int) else 0) == b
  | Val.int a, Val.bool b => a == (if b then (1 : Int) else 0)
  | Val.enum a, Val.enum b => a == b
  | Val.enum a, Val.int b => a == b
  | Val.int a, Val.enum b => a == b
  | Val.enum a, Val.bool b => a == (if b then (1 : Int) else 0)
  | Val.bool a, Val.enum b => (if a then (1 : Int) else 0) == b
  | Val.float a, Val.float b => a == b
  | Val.dict a, Val.dict b => pyEqFields a b
  | Val.list a, Val.list b => pyEqList a b
  | Val.model cn _ _ fs, Val.model cn2 _ _ fs2 => cn == cn2 && pyEqFields fs fs2
  | _, _ => false

/-- Element-wise Python `==` on lists. -/
def pyEqList : ValList → ValList → Bool
  | ValList.nil, ValList.nil => true
  | ValList.cons a as, ValList.cons b bs => pyEq a b && pyEqList as bs
  | _, _ => false

/-- Attribute-wise Python `==` on attribute states (dataclass `__eq__`
compares the field tuples of two instances of the same class, so names
appear in the same order). -/
def pyEqFields : Fields → Fields → Bool
  | Fields.nil, Fields.nil => true
  | Fields.cons k v tl, Fields.cons k2 v2 tl2 => k == k2 && pyEq v v2 && pyEqFields tl tl2
  | _, _ => false

end

mutual

/-- Round-trippability of one populated attribute value `val` at key `k`
of class `cls`, exactly as `from_dict cls (to_dict inst)` requires it:
* a primitive or enum value needs the class default at `k` to be `None`
  or the empty list (otherwise the decode loop skips the key, or — for a
  model default — crashes calling `.items()` on the primitive);
* a non-empty list needs a non-model default at `k` and a declared type
  string at `k` whose bracketed element name either falls outside the
  `terra` namespace with a primitive-typed first element (pass-through
  both ways) or resolves in the catalog to the class of every element,
  each element being recursively round-trippable;
* a nested model needs the default at `k` to be an instance of the same
  class (the decode recurses through the default's class), with its own
  fields recursively round-trippable;
* `None` values and empty lists are excluded (the claim's own
  "fully populated" hypothesis). -/
def rtField (cat : Catalog) (cls : PyClass) (k : String) (val : Val) : Bool :=
  match val with
  | Val.none => false
  | Val.list ValList.nil => false
  | Val.str _ | Val.int _ | Val.bool _ | Val.float _ | Val.dict _ | Val.enum _ =>
      match lookupF cls.defaults k with
      | some d => isNoneOrEmptyList d
      | Option.none => false
  | Val.list (ValList.cons h ht) =>
      match lookupF cls.defaults k, lookupT cls.ftypes k with
      | some d, some t =>
          !(isModelB d) &&
          (match elemTypeName t with
           | some nm =>
               if isTerra (qualify nm) then
                 match catLookup cat (qualify nm) with
                 | some icls => rtElems cat icls (ValList.cons h ht)
                 | Option.none => false
               else isPrimitiveType h
           | Option.none => false)
      | _, _ => false
  | Val.model cn dfs fts mfs =>
      match lookupF cls.defaults k with
      | some (Val.model cn2 dfs2 fts2 _) =>
          decide (cn2 = cn) && decide (dfs2 = dfs) && decide (fts2 = fts) &&
          (decide (keysF mfs = keysF dfs) && decide ((keysF dfs).Nodup) &&
           rtAll cat (PyClass.mk cn dfs fts) mfs)
      | _ => false

/-- Every element of a decoded-list field is an instance of the located
class `icls` and recursively round-trippable. -/
def rtElems (cat : Catalog) (icls : PyClass) : ValList → Bool
  | ValList.nil => true
  | ValList.cons x xs =>
      (match x with
       | Val.model cn dfs fts efs =>
           decide (cn = icls.name) && decide (dfs = icls.defaults) &&
           decide (fts = icls.ftypes) &&
           (decide (keysF efs = keysF icls.defaults) &&
            decide ((keysF icls.defaults).Nodup) && rtAll cat icls efs)
       | _ => false) && rtElems cat icls xs

/-- All attribute values of an instance are round-trippable. -/
def rtAll (cat : Catalog) (cls : PyClass) : Fields → Bool
  | Fields.nil => true
  | Fields.cons k v tl => rtField cat cls k v && rtAll cat cls tl

end

/-- A fully-populated instance state `fs` of class `cls` is
round-trippable: its attribute names coincide, in order and without
duplicates, with the class defaults, and every attribute value satisfies
`rtField`. -/
def rtFields (cat : Catalog) (cls : PyClass) (fs : Fields) : Bool :=
  decide (keysF fs = keysF cls.defaults) && decide ((keysF cls.defaults).Nodup) &&
  rtAll cat cls fs

/-- Spine induction for `Fields` (the values stay opaque; the
mutually-inductive recursor is inconvenient for the `induction`
tactic). -/
@[induction_eliminator]
def Fields.ind {motive : Fields → Prop} (nil : motive Fields.nil)
    (cons : ∀ (k : String) (v : Val) (tl : Fields), motive tl → motive (Fields.cons k v tl)) :
    (fs : Fields) → motive fs
  | Fields.nil => nil
  | Fields.cons k v tl => cons k v tl (Fields.ind nil cons tl)

/-- Spine induction for `ValList`. -/
@[induction_eliminator]
def ValList.ind {motive : ValList → Prop} (nil : motive ValList.nil)
    (cons : ∀ (v : Val) (tl : ValList), motive tl → motive (ValList.cons v tl)) :
    (xs : ValList) → motive xs
  | ValList.nil => nil
  | ValList.cons v tl => cons v tl (ValList.ind nil cons tl)

/-- Concatenation of attribute states (a proof device for reasoning
about the decode loop's already-processed prefix). -/
def appendF : Fields → Fields → Fields
  | Fields.nil, ys => ys
  | Fields.cons k v tl, ys => Fields.cons k v (appendF tl ys)

@[simp] lemma appendF_nil (ys : Fields) : appendF Fields.nil ys = ys := rfl

@[simp] lemma appendF_cons (k : String) (v : Val) (tl ys : Fields) :
    appendF (Fields.cons k v tl) ys = Fields.cons k v (appendF tl ys) := rfl

lemma appendF_assoc (a b c : Fields) :
    appendF (appendF a b) c = appendF a (appendF b c) := by
  induction a with
  | nil => rfl
  | cons k v tl ih => simp [ih]

@[simp] lemma keysF_appendF (a b : Fields) :
    keysF (appendF a b) = keysF a ++ keysF b := by
  induction a with
  | nil => simp [keysF]
  | cons k v tl ih => simp [keysF, ih]

@[simp] lemma keysF_nil : keysF Fields.nil = [] := rfl

@[simp] lemma keysF_cons (k : String) (v : Val) (tl : Fields) :
    keysF (Fields.cons k v tl) = k :: keysF tl := rfl

@[simp] lemma lookupF_nil (k : String) : lookupF Fields.nil k = Option.none := rfl

lemma lookupF_cons (k' : String) (v : Val) (tl : Fields) (k : String) :
    lookupF (Fields.cons k' v tl) k = if k' = k then some v else lookupF tl k := rfl

@[simp] lemma lookupF_cons_self (k : String) (v : Val) (tl : Fields) :
    lookupF (Fields.cons k v tl) k = some v := by simp [lookupF_cons]

lemma lookupF_appendF_of_not_mem {k : String} {pre : Fields} (rest : Fields)
    (h : k ∉ keysF pre) : lookupF (appendF pre rest) k = lookupF rest k := by
  induction pre with
  | nil => rfl
  | cons k' v tl ih =>
      simp only [keysF_cons, List.mem_cons, not_or] at h
      simp [lookupF_cons, Ne.symm h.1, ih h.2]

lemma setattrF_appendF_of_not_mem {k : String} {pre : Fields} (rest : Fields) (v : Val)
    (h : k ∉ keysF pre) :
    setattrF (appendF pre rest) k v = appendF pre (setattrF rest k v) := by
  induction pre with
  | nil => rfl
  | cons k' w tl ih =>
      simp only [keysF_cons, List.mem_cons, not_or] at h
      simp [setattrF, Ne.symm h.1, ih h.2]

@[simp] lemma setattrF_cons_self (k : String) (w v : Val) (tl : Fields) :
    setattrF (Fields.cons k w tl) k v = Fields.cons k v tl := by simp [setattrF]

lemma lookupF_setattrF_self {fs : Fields} {k : String} (v : Val)
    (h : (lookupF fs k).isSome) : lookupF (setattrF fs k v) k = some v := by
  induction fs with
  | nil => simp [lookupF] at h
  | cons k' w tl ih =>
      by_cases hk : k' = k
      · subst hk; simp [setattrF]
      · simp only [lookupF_cons, hk, if_false] at h ⊢
        simp only [setattrF, hk, if_false, lookupF_cons]
        exact ih h

lemma lookupF_setattrF_other {fs : Fields} {k k' : String} (v : Val) (h : k' ≠ k) :
    lookupF (setattrF fs k v) k' = lookupF fs k' := by
  induction fs with
  | nil => simp [setattrF, lookupF_cons, Ne.symm h]
  | cons k2 w tl ih =>
      by_cases hk : k2 = k
      · subst hk; simp [setattrF, lookupF_cons, Ne.symm h]
      · simp [setattrF, hk, lookupF_cons, ih]

lemma keysF_setattrF_of_mem {fs : Fields} {k : String} (v : Val)
    (h : k ∈ keysF fs) : keysF (setattrF fs k v) = keysF fs := by
  induction fs with
  | nil => simp [keysF] at h
  | cons k2 w tl ih =>
      by_cases hk : k2 = k
      · subst hk; simp [setattrF]
      · simp only [keysF_cons, List.mem_cons] at h
        rcases h with h | h
        · exact absurd h.symm hk
        · simp [setattrF, hk, keysF, ih h]

section StepLemmas

variable (cat : Catalog) (cls : PyClass) (k : String) (v : Val) (tl : Fields)
variable (F : Fields) (safe : Bool)

/-- Decode-loop step: an existing non-null, non-empty-list, non-model
attribute with a non-list incoming value is silently skipped. -/
lemma fromDictLoop_skip {d : Val} (hl : lookupF F k = some d)
    (h1 : isNoneOrEmptyList d = false) (h2 : isModelB d = false)
    (h3 : isListB v = false) :
    fromDictLoop cat cls (Fields.cons k v tl) safe F = fromDictLoop cat cls tl safe F := by
  cases d <;> cases v <;>
    simp_all [fromDictLoop, isNoneOrEmptyList, isModelB, isListB]

/-- Decode-loop step: a null or empty-list existing attribute takes a
non-list incoming value as-is. -/
lemma fromDictLoop_assign {d : Val} (hl : lookupF F k = some d)
    (h1 : isNoneOrEmptyList d = true) (h3 : isListB v = false) :
    fromDictLoop cat cls (Fields.cons k v tl) safe F
      = fromDictLoop cat cls tl safe (setattrF F k v) := by
  cases d <;> cases v <;>
    simp_all [fromDictLoop, isNoneOrEmptyList, isListB]

/-- Decode-loop step: an existing nested-model attribute routes the
incoming value through a strict decode bound to the existing value's
class, with `safe` reset to `False`. -/
lemma fromDictLoop_model_ok {cn : String} {dfs : Fields} {fts : List (String × String)}
    {dmfs : Fields} {v2 : Val}
    (hl : lookupF F k = some (Val.model cn dfs fts dmfs))
    (hd : from_dict cat (PyClass.mk cn dfs fts) v false = Except.ok v2) :
    fromDictLoop cat cls (Fields.cons k v tl) safe F
      = fromDictLoop cat cls tl safe (setattrF F k v2) := by
  rw [fromDictLoop.eq_def]
  simp [hl, isModelB, hd]

lemma fromDictLoop_model_err {cn : String} {dfs : Fields} {fts : List (String × String)}
    {dmfs : Fields} {e : PyErr}
    (hl : lookupF F k = some (Val.model cn dfs fts dmfs))
    (hd : from_dict cat (PyClass.mk cn dfs fts) v false = Except.error e) :
    fromDictLoop cat cls (Fields.cons k v tl) safe F = Except.error e := by
  rw [fromDictLoop.eq_def]
  simp [hl, isModelB, hd]

/-- Decode-loop step: an incoming empty list overwrites any existing
non-model attribute value. -/
lemma fromDictLoop_empty_list {d : Val} (hl : lookupF F k = some d)
    (h2 : isModelB d = false) :
    fromDictLoop cat cls (Fields.cons k (Val.list ValList.nil) tl) safe F
      = fromDictLoop cat cls tl safe (setattrF F k (Val.list ValList.nil)) := by
  cases d <;> simp_all [fromDictLoop, isNoneOrEmptyList, isModelB, isListB]

/-- Decode-loop step, list branch: when the extracted element-type name
does not (after qualification) fall in the `terra` namespace, a
non-empty list passes through unchanged. -/
lemma fromDictLoop_list_passthrough {d h : Val} {ht : ValList} {t nm : String}
    (hl : lookupF F k = some d) (h2 : isModelB d = false)
    (hm : lookupT cls.ftypes k = some t) (he : elemTypeName t = some nm)
    (hq : isTerra (qualify nm) = false) :
    fromDictLoop cat cls (Fields.cons k (Val.list (ValList.cons h ht)) tl) safe F
      = fromDictLoop cat cls tl safe (setattrF F k (Val.list (ValList.cons h ht))) := by
  rw [fromDictLoop.eq_def]
  cases d <;> simp_all [isModelB, isNoneOrEmptyList, isListB]

/-- Decode-loop step, list branch: a `terra`-namespace element-type name
that resolves in the catalog decodes each element strictly into a fresh
instance of the located class (success case). -/
lemma fromDictLoop_list_resolve_ok {d : Val} {h : Val} {ht xs2 : ValList} {t nm : String}
    {icls : PyClass}
    (hl : lookupF F k = some d) (h2 : isModelB d = false)
    (hm : lookupT cls.ftypes k = some t) (he : elemTypeName t = some nm)
    (hq : isTerra (qualify nm) = true) (hc : catLookup cat (qualify nm) = some icls)
    (hx : fromDictEach cat icls (ValList.cons h ht) = Except.ok xs2) :
    fromDictLoop cat cls (Fields.cons k (Val.list (ValList.cons h ht)) tl) safe F
      = fromDictLoop cat cls tl safe (setattrF F k (Val.list xs2)) := by
  rw [fromDictLoop.eq_def]
  cases d <;> simp_all [isModelB, isNoneOrEmptyList, isListB]

/-- Decode-loop step, list branch: a `terra`-namespace element-type name
that `pydoc.locate` cannot resolve makes the whole call raise
`TypeError` (`None` is not callable) — not a pass-through. -/
lemma fromDictLoop_list_unresolved {d h : Val} {ht : ValList} {t nm : String}
    (hl : lookupF F k = some d) (h2 : isModelB d = false)
    (hm : lookupT cls.ftypes k = some t) (he : elemTypeName t = some nm)
    (hq : isTerra (qualify nm) = true) (hc : catLookup cat (qualify nm) = Option.none) :
    fromDictLoop cat cls (Fields.cons k (Val.list (ValList.cons h ht)) tl) safe F
      = Except.error PyErr.typeError := by
  rw [fromDictLoop.eq_def]
  cases d <;> simp_all [isModelB, isNoneOrEmptyList, isListB]

/-- Decode-loop step, list branch: a non-empty incoming list at a key
with no dataclass field-type entry raises `KeyError` at `z[k]`. -/
lemma fromDictLoop_list_nometa {d h : Val} {ht : ValList}
    (hl : lookupF F k = some d) (h2 : isModelB d = false)
    (hm : lookupT cls.ftypes k = Option.none) :
    fromDictLoop cat cls (Fields.cons k (Val.list (ValList.cons h ht)) tl) safe F
      = Except.error (PyErr.keyError k) := by
  rw [fromDictLoop.eq_def]
  cases d <;> simp_all [isModelB, isNoneOrEmptyList, isListB]

/-- Decode-loop step, list branch: a declared type string with no `[`
raises `IndexError` at `.split("[")[1]`. -/
lemma fromDictLoop_list_noextract {d h : Val} {ht : ValList} {t : String}
    (hl : lookupF F k = some d) (h2 : isModelB d = false)
    (hm : lookupT cls.ftypes k = some t) (he : elemTypeName t = Option.none) :
    fromDictLoop cat cls (Fields.cons k (Val.list (ValList.cons h ht)) tl) safe F
      = Except.error PyErr.indexError := by
  rw [fromDictLoop.eq_def]
  cases d <;> simp_all [isModelB, isNoneOrEmptyList, isListB]

/-- Decode-loop step: an unknown key with `safe=False` raises
`AttributeError` immediately. -/
lemma fromDictLoop_notfound_raises (hl : lookupF F k = Option.none) :
    fromDictLoop cat cls (Fields.cons k v tl) false F
      = Except.error (PyErr.attributeError k) := by
  rw [fromDictLoop.eq_def]
  simp [hl]

/-- Decode-loop step: an unknown key with `safe=True` and a non-list
incoming value is skipped (the `"NOT_FOUND"` sentinel fails every
eligibility disjunct). -/
lemma fromDictLoop_notfound_safe_nonlist (hl : lookupF F k = Option.none)
    (h3 : isListB v = false) :
    fromDictLoop cat cls (Fields.cons k v tl) true F = fromDictLoop cat cls tl true F := by
  rw [fromDictLoop.eq_def]
  cases v <;> simp_all [isNoneOrEmptyList, isModelB, isListB]

/-- Decode-loop step: an unknown key with `safe=True` and an incoming
empty list is not skipped — the empty list is assigned, adding the
attribute. -/
lemma fromDictLoop_notfound_safe_empty_list (hl : lookupF F k = Option.none) :
    fromDictLoop cat cls (Fields.cons k (Val.list ValList.nil) tl) true F
      = fromDictLoop cat cls tl true (setattrF F k (Val.list ValList.nil)) := by
  rw [fromDictLoop.eq_def]
  simp [hl, isNoneOrEmptyList, isModelB, isListB]

/-- Decode-loop step: an unknown key with `safe=True` and a non-empty
incoming list still enters the list branch; if the key has no dataclass
field-type entry either, `z[k]` raises `KeyError` despite `safe=True`. -/
lemma fromDictLoop_notfound_safe_list_nometa {h : Val} {ht : ValList}
    (hl : lookupF F k = Option.none) (hm : lookupT cls.ftypes k = Option.none) :
    fromDictLoop cat cls (Fields.cons k (Val.list (ValList.cons h ht)) tl) true F
      = Except.error (PyErr.keyError k) := by
  rw [fromDictLoop.eq_def]
  simp [hl, hm, isNoneOrEmptyList, isModelB, isListB]

/-- Permissive-loop step: the eligibility test is only "existing value
is null/empty-list or a model" — with a non-eligible existing value the
key is skipped for every incoming value, lists included. -/
lemma fromDictApiLoop_skip {d : Val} (hl : lookupF F k = some d)
    (h1 : isNoneOrEmptyList d = false) (h2 : isModelB d = false) :
    fromDictApiLoop cls (Fields.cons k v tl) safe F = fromDictApiLoop cls tl safe F := by
  rw [fromDictApiLoop.eq_def]
  cases d <;> simp_all [isNoneOrEmptyList, isModelB]

/-- Permissive-loop step: a null or empty-list existing value takes the
incoming value as-is — no metadata lookup, no element decoding, lists
included. -/
lemma fromDictApiLoop_assign {d : Val} (hl : lookupF F k = some d)
    (h1 : isNoneOrEmptyList d = true) :
    fromDictApiLoop cls (Fields.cons k v tl) safe F
      = fromDictApiLoop cls tl safe (setattrF F k v) := by
  rw [fromDictApiLoop.eq_def]
  cases d <;> simp_all [isNoneOrEmptyList, isModelB]

/-- Permissive-loop step: an existing nested-model value routes the
incoming value through a permissive decode bound to the existing value's
class, with `safe` reset to `False` (success case). -/
lemma fromDictApiLoop_model_ok {cn : String} {dfs : Fields} {fts : List (String × String)}
    {dmfs : Fields} {v2 : Val}
    (hl : lookupF F k = some (Val.model cn dfs fts dmfs))
    (hd : from_dict_api (PyClass.mk cn dfs fts) v false = Except.ok v2) :
    fromDictApiLoop cls (Fields.cons k v tl) safe F
      = fromDictApiLoop cls tl safe (setattrF F k v2) := by
  rw [fromDictApiLoop.eq_def]
  simp [hl, isModelB, hd]

/-- Permissive-loop step: error propagation out of the nested decode. -/
lemma fromDictApiLoop_model_err {cn : String} {dfs : Fields} {fts : List (String × String)}
    {dmfs : Fields} {e : PyErr}
    (hl : lookupF F k = some (Val.model cn dfs fts dmfs))
    (hd : from_dict_api (PyClass.mk cn dfs fts) v false = Except.error e) :
    fromDictApiLoop cls (Fields.cons k v tl) safe F = Except.error e := by
  rw [fromDictApiLoop.eq_def]
  simp [hl, isModelB, hd]

/-- Permissive-loop step: unknown key, `safe=False`: `AttributeError`. -/
lemma fromDictApiLoop_notfound_raises (hl : lookupF F k = Option.none) :
    fromDictApiLoop cls (Fields.cons k v tl) false F
      = Except.error (PyErr.attributeError k) := by
  rw [fromDictApiLoop.eq_def]
  simp [hl]

/-- Permissive-loop step: unknown key, `safe=True`: skipped for every
incoming value. -/
lemma fromDictApiLoop_notfound_safe (hl : lookupF F k = Option.none) :
    fromDictApiLoop cls (Fields.cons k v tl) true F = fromDictApiLoop cls tl true F := by
  rw [fromDictApiLoop.eq_def]
  simp [hl, isNoneOrEmptyList, isModelB]

/-- Merge step: a key whose current value is exactly `None` is set to
the incoming value unchanged. -/
lemma populate_set (hl : lookupF F k = some Val.none) :
    populate_from_dict F (Fields.cons k v tl) safe
      = populate_from_dict (setattrF F k v) tl safe := by
  rw [populate_from_dict.eq_def]
  simp [hl]

/-- Merge step: a key whose current value is anything but `None` is left
unchanged. -/
lemma populate_skip {w : Val} (hl : lookupF F k = some w) (hw : w ≠ Val.none) :
    populate_from_dict F (Fields.cons k v tl) safe = populate_from_dict F tl safe := by
  rw [populate_from_dict.eq_def]
  cases w <;> simp_all

/-- Merge step: unknown key, `safe=False`: `AttributeError`. -/
lemma populate_notfound_raises (hl : lookupF F k = Option.none) :
    populate_from_dict F (Fields.cons k v tl) false
      = Except.error (PyErr.attributeError k) := by
  rw [populate_from_dict.eq_def]
  simp [hl]

/-- Merge step: unknown key, `safe=True`: skipped (the sentinel is not
`None`). -/
lemma populate_notfound_safe (hl : lookupF F k = Option.none) :
    populate_from_dict F (Fields.cons k v tl) true = populate_from_dict F tl true := by
  rw [populate_from_dict.eq_def]
  simp [hl]

end StepLemmas

section EvalLemmas

variable (cat : Catalog) (cls : PyClass) (safe : Bool) (F : Fields)

@[simp] lemma fromDictLoop_nil : fromDictLoop cat cls Fields.nil safe F = Except.ok F := by
  rw [fromDictLoop.eq_def]

@[simp] lemma fromDictApiLoop_nil : fromDictApiLoop cls Fields.nil safe F = Except.ok F := by
  rw [fromDictApiLoop.eq_def]

@[simp] lemma populate_nil : populate_from_dict F Fields.nil safe = Except.ok F := by
  rw [populate_from_dict.eq_def]

lemma from_dict_dict_ok {m fs : Fields}
    (h : fromDictLoop cat cls m safe cls.defaults = Except.ok fs) :
    from_dict cat cls (Val.dict m) safe
      = Except.ok (Val.model cls.name cls.defaults cls.ftypes fs) := by
  rw [from_dict.eq_def]
  simp [h]

lemma from_dict_dict_err {m : Fields} {e : PyErr}
    (h : fromDictLoop cat cls m safe cls.defaults = Except.error e) :
    from_dict cat cls (Val.dict m) safe = Except.error e := by
  rw [from_dict.eq_def]
  simp [h]

lemma from_dict_api_dict_ok {m fs : Fields}
    (h : fromDictApiLoop cls m safe cls.defaults = Except.ok fs) :
    from_dict_api cls (Val.dict m) safe
      = Except.ok (Val.model cls.name cls.defaults cls.ftypes fs) := by
  rw [from_dict_api.eq_def]
  simp [h]

lemma from_dict_api_dict_err {m : Fields} {e : PyErr}
    (h : fromDictApiLoop cls m safe cls.defaults = Except.error e) :
    from_dict_api cls (Val.dict m) safe = Except.error e := by
  rw [from_dict_api.eq_def]
  simp [h]

@[simp] lemma to_dict_nil : to_dict Fields.nil = Except.ok Fields.nil := by
  rw [to_dict.eq_def]

lemma to_dict_cons_ok {k : String} {val e : Val} {tl rest : Fields}
    (h1 : encodeAttr val = Except.ok e) (h2 : to_dict tl = Except.ok rest) :
    to_dict (Fields.cons k val tl) = Except.ok (Fields.cons k e rest) := by
  rw [to_dict.eq_def]
  simp [h1, h2]

@[simp] lemma encodeAttr_enum (n : Int) : encodeAttr (Val.enum n) = Except.ok (Val.int n) := by
  rw [encodeAttr.eq_def]

lemma encodeAttr_prim {val : Val} (h : isPrimitiveType val = true) :
    encodeAttr val = Except.ok val := by
  cases val <;> simp_all [isPrimitiveType] <;> rw [encodeAttr.eq_def]

lemma encodeAttr_model_ok {cn : String} {dfs : Fields} {fts : List (String × String)}
    {mfs d : Fields} (h : to_dict mfs = Except.ok d) :
    encodeAttr (Val.model cn dfs fts mfs) = Except.ok (Val.dict d) := by
  rw [encodeAttr.eq_def]
  simp [h]

lemma encodeAttr_list_pass {xs : ValList} (h : isEmptyOrPrimHead xs = true) :
    encodeAttr (Val.list xs) = Except.ok (Val.list xs) := by
  rw [encodeAttr.eq_def]
  simp [h]

lemma encodeAttr_list_elems {xs ds : ValList} (h : isEmptyOrPrimHead xs = false)
    (h2 : encodeElems xs = Except.ok ds) :
    encodeAttr (Val.list xs) = Except.ok (Val.list ds) := by
  rw [encodeAttr.eq_def]
  simp [h, h2]

lemma to_dict_cons_err {k : String} {val : Val} {tl : Fields} {e : PyErr}
    (h1 : encodeAttr val = Except.error e) :
    to_dict (Fields.cons k val tl) = Except.error e := by
  rw [to_dict.eq_def]
  simp [h1]

lemma encodeAttr_list_elems_err {xs : ValList} {e : PyErr} (h : isEmptyOrPrimHead xs = false)
    (h2 : encodeElems xs = Except.error e) :
    encodeAttr (Val.list xs) = Except.error e := by
  rw [encodeAttr.eq_def]
  simp [h, h2]

@[simp] lemma encodeElems_nil : encodeElems ValList.nil = Except.ok ValList.nil := by
  rw [encodeElems.eq_def]

lemma encodeElems_cons_model_ok {cn : String} {dfs : Fields} {fts : List (String × String)}
    {mfs d : Fields} {xs rest : ValList}
    (h1 : to_dict mfs = Except.ok d) (h2 : encodeElems xs = Except.ok rest) :
    encodeElems (ValList.cons (Val.model cn dfs fts mfs) xs)
      = Except.ok (ValList.cons (Val.dict d) rest) := by
  rw [encodeElems.eq_def]
  simp [h1, h2]

@[simp] lemma fromDictEach_nil (icls : PyClass) :
    fromDictEach cat icls ValList.nil = Except.ok ValList.nil := by
  rw [fromDictEach.eq_def]

lemma fromDictEach_cons_ok {icls : PyClass} {d x : Val} {ds rest : ValList}
    (h1 : from_dict cat icls d false = Except.ok x)
    (h2 : fromDictEach cat icls ds = Except.ok rest) :
    fromDictEach cat icls (ValList.cons d ds) = Except.ok (ValList.cons x rest) := by
  rw [fromDictEach.eq_def]
  simp [h1, h2]

end EvalLemmas

lemma pyEq_refl_all : ∀ n : Nat,
    (∀ v : Val, sizeOf v ≤ n → pyEq v v = true) ∧
    (∀ xs : ValList, sizeOf xs ≤ n → pyEqList xs xs = true) ∧
    (∀ fs : Fields, sizeOf fs ≤ n → pyEqFields fs fs = true) := by
  intro n
  induction n using Nat.strong_induction_on with
  | _ n ih =>
    refine ⟨?_, ?_, ?_⟩
    · intro v hv
      cases v with
      | dict m =>
          have hm : sizeOf m < n := by
            have := Val.dict.sizeOf_spec m; omega
          rw [pyEq.eq_def]
          exact (ih (sizeOf m) hm).2.2 m le_rfl
      | list xs =>
          have hm : sizeOf xs < n := by
            have := Val.list.sizeOf_spec xs; omega
          rw [pyEq.eq_def]
          exact (ih (sizeOf xs) hm).2.1 xs le_rfl
      | model cn dfs fts fs =>
          have hm : sizeOf fs < n := by
            have := Val.model.sizeOf_spec cn dfs fts fs; omega
          rw [pyEq.eq_def]
          simp [(ih (sizeOf fs) hm).2.2 fs le_rfl]
      | _ => rw [pyEq.eq_def] <;> simp
    · intro xs hxs
      cases xs with
      | nil => rw [pyEqList.eq_def]
      | cons v tl =>
          have h1 : sizeOf v < n := by
            have := ValList.cons.sizeOf_spec v tl; omega
          have h2 : sizeOf tl < n := by
            have := ValList.cons.sizeOf_spec v tl; omega
          rw [pyEqList.eq_def]
          simp [(ih (sizeOf v) h1).1 v le_rfl, (ih (sizeOf tl) h2).2.1 tl le_rfl]
    · intro fs hfs
      cases fs with
      | nil => rw [pyEqFields.eq_def]
      | cons k v tl =>
          have h1 : sizeOf v < n := by
            have := Fields.cons.sizeOf_spec k v tl; omega
          have h2 : sizeOf tl < n := by
            have := Fields.cons.sizeOf_spec k v tl; omega
          rw [pyEqFields.eq_def]
          simp [(ih (sizeOf v) h1).1 v le_rfl, (ih (sizeOf tl) h2).2.2 tl le_rfl]

lemma mem_keysF_of_lookup {fs : Fields} {k : String} {w : Val}
    (h : lookupF fs k = some w) : k ∈ keysF fs := by
  induction fs with
  | nil => simp [lookupF] at h
  | cons k2 v tl ih =>
      by_cases hk : k2 = k
      · subst hk; simp
      · simp only [lookupF_cons, hk, if_false] at h
        simp [ih h]

lemma lookupF_eq_none_of_not_mem {fs : Fields} {k : String}
    (h : k ∉ keysF fs) : lookupF fs k = Option.none := by
  induction fs with
  | nil => rfl
  | cons k2 v tl ih =>
      simp only [keysF_cons, List.mem_cons, not_or] at h
      simp [lookupF_cons, Ne.symm h.1, ih h.2]

lemma fromDictEach_cons_err (cat : Catalog) {icls : PyClass} {d : Val} {ds : ValList} {e : PyErr}
    (h1 : from_dict cat icls d false = Except.error e) :
    fromDictEach cat icls (ValList.cons d ds) = Except.error e := by
  rw [fromDictEach.eq_def]
  simp [h1]

lemma fromDictLoop_list_resolve_err (cat : Catalog) (cls : PyClass) (k : String)
    (tl F : Fields) (safe : Bool) {d h : Val} {ht : ValList} {t nm : String}
    {icls : PyClass} {e : PyErr}
    (hl : lookupF F k = some d) (h2 : isModelB d = false)
    (hm : lookupT cls.ftypes k = some t) (he : elemTypeName t = some nm)
    (hq : isTerra (qualify nm) = true) (hc : catLookup cat (qualify nm) = some icls)
    (hx : fromDictEach cat icls (ValList.cons h ht) = Except.error e) :
    fromDictLoop cat cls (Fields.cons k (Val.list (ValList.cons h ht)) tl) safe F
      = Except.error e := by
  rw [fromDictLoop.eq_def]
  cases d <;> simp_all [isModelB, isNoneOrEmptyList, isListB]

lemma pyEq_refl (v : Val) : pyEq v v = true :=
  (pyEq_refl_all (sizeOf v)).1 v le_rfl

lemma pyEqList_refl (xs : ValList) : pyEqList xs xs = true :=
  (pyEq_refl_all (sizeOf xs)).2.1 xs le_rfl

lemma pyEqFields_refl (fs : Fields) : pyEqFields fs fs = true :=
  (pyEq_refl_all (sizeOf fs)).2.2 fs le_rfl

/-- C7: for every decode (strict `from_dict` or permissive
`from_dict_api`) of a key whose existing attribute value is non-`None`,
not an empty list and not a nested model, and whose incoming value is
not a list, the existing value is left unchanged and no error is raised:
on a singleton mapping both decoders return a fresh instance whose
attributes are exactly the class defaults, and in mid-loop position with
any attribute state the entry is skipped. -/
theorem c7_silent_skip (cat : Catalog) (cls : PyClass) (k : String) (v inner : Val)
    (safe : Bool)
    (hl : lookupF cls.defaults k = some inner)
    (h1 : isNoneOrEmptyList inner = false) (h2 : isModelB inner = false)
    (h3 : isListB v = false) :
    from_dict cat cls (Val.dict (Fields.cons k v Fields.nil)) safe
      = Except.ok (Val.model cls.name cls.defaults cls.ftypes cls.defaults) ∧
    from_dict_api cls (Val.dict (Fields.cons k v Fields.nil)) safe
      = Except.ok (Val.model cls.name cls.defaults cls.ftypes cls.defaults) ∧
    (∀ (tl F : Fields), lookupF F k = some inner →
        fromDictLoop cat cls (Fields.cons k v tl) safe F = fromDictLoop cat cls tl safe F ∧
        fromDictApiLoop cls (Fields.cons k v tl) safe F = fromDictApiLoop cls tl safe F) := by
  refine ⟨?_, ?_, fun tl F hF => ⟨?_, ?_⟩⟩
  · exact from_dict_dict_ok _ _ _
      (by rw [fromDictLoop_skip _ _ _ _ _ _ _ hl h1 h2 h3, fromDictLoop_nil])
  · exact from_dict_api_dict_ok _ _
      (by rw [fromDictApiLoop_skip _ _ _ _ _ _ hl h1 h2, fromDictApiLoop_nil])
  · exact fromDictLoop_skip _ _ _ _ _ _ _ hF h1 h2 h3
  · exact fromDictApiLoop_skip _ _ _ _ _ _ hF h1 h2

/-- Witness for C7 at a concrete input: class with default `x = 3`,
incoming `x = 9`; both decoders leave `x = 3` and raise nothing. -/
theorem c7_witness :
    from_dict [] (PyClass.mk "W" (Fields.cons "x" (Val.int 3) Fields.nil) [])
        (Val.dict (Fields.cons "x" (Val.int 9) Fields.nil)) false
      = Except.ok (Val.model "W" (Fields.cons "x" (Val.int 3) Fields.nil) []
          (Fields.cons "x" (Val.int 3) Fields.nil)) :=
  (c7_silent_skip [] (PyClass.mk "W" (Fields.cons "x" (Val.int 3) Fields.nil) [])
    "x" (Val.int 9) (Val.int 3) false rfl rfl rfl rfl).1

/-- C6: `populate_from_dict` sets an attribute only when its current
value is exactly `None`: on success the attribute names are unchanged,
every key whose current value is not `None` (empty list, zero, false,
anything) keeps its value, and every key whose current value is `None`
ends at the incoming value (unchanged, with no recursion or type
resolution), or stays `None` when the mapping does not mention it. -/
theorem c6_populate_null_only : ∀ (m fs : Fields) (safe : Bool) (fs2 : Fields),
    (keysF m).Nodup → populate_from_dict fs m safe = Except.ok fs2 →
    keysF fs2 = keysF fs ∧
    (∀ k w, lookupF fs k = some w → w ≠ Val.none → lookupF fs2 k = some w) ∧
    (∀ k, lookupF fs k = some Val.none →
        lookupF fs2 k = some ((lookupF m k).getD Val.none)) := by
  intro m
  induction m with
  | nil =>
      intro fs safe fs2 hnd h
      rw [populate_nil] at h
      cases h
      refine ⟨rfl, fun k w hw _ => hw, fun k hk => ?_⟩
      simpa using hk
  | cons k v tl ih =>
      intro fs safe fs2 hnd h
      rw [keysF_cons, List.nodup_cons] at hnd
      cases hk : lookupF fs k with
      | none =>
          cases safe with
          | false => rw [populate_notfound_raises _ _ _ _ hk] at h; cases h
          | true =>
              rw [populate_notfound_safe _ _ _ _ hk] at h
              obtain ⟨ha, hb, hc⟩ := ih fs true fs2 hnd.2 h
              refine ⟨ha, hb, fun k2 hk2 => ?_⟩
              by_cases hkk : k = k2
              · subst hkk; rw [hk] at hk2; cases hk2
              · rw [hc k2 hk2, lookupF_cons, if_neg hkk]
      | some w =>
          by_cases hw : w = Val.none
          · subst hw
            rw [populate_set _ _ _ _ _ hk] at h
            have hmem := mem_keysF_of_lookup hk
            obtain ⟨ha, hb, hc⟩ := ih (setattrF fs k v) safe fs2 hnd.2 h
            refine ⟨ha.trans (keysF_setattrF_of_mem v hmem), ?_, ?_⟩
            · intro k2 w2 hl2 hw2
              by_cases hkk : k = k2
              · subst hkk; rw [hk] at hl2; cases hl2; exact absurd rfl hw2
              · exact hb k2 w2 (by rw [lookupF_setattrF_other v (Ne.symm hkk)]; exact hl2) hw2
            · intro k2 hl2
              by_cases hkk : k = k2
              · subst hkk
                rw [lookupF_cons, if_pos rfl]
                have hset : lookupF (setattrF fs k v) k = some v :=
                  lookupF_setattrF_self v (by rw [hk]; rfl)
                by_cases hv : v = Val.none
                · subst hv
                  rw [hc k hset, lookupF_eq_none_of_not_mem hnd.1]
                  rfl
                · exact hb k v hset hv
              · have hl2' : lookupF (setattrF fs k v) k2 = some Val.none := by
                  rw [lookupF_setattrF_other v (Ne.symm hkk)]; exact hl2
                rw [hc k2 hl2', lookupF_cons, if_neg hkk]
          · rw [populate_skip _ _ _ _ _ hk hw] at h
            obtain ⟨ha, hb, hc⟩ := ih fs safe fs2 hnd.2 h
            refine ⟨ha, hb, fun k2 hk2 => ?_⟩
            by_cases hkk : k = k2
            · subst hkk; rw [hk] at hk2; cases hk2; exact absurd rfl hw
            · rw [hc k2 hk2, lookupF_cons, if_neg hkk]

/-- Witness for C6 at a concrete input: `x = None`, `y = []`, `z = 0`
merged with `x = 5, y = [1], z = 9` sets only `x`. -/
theorem c6_witness :
    keysF (Fields.cons "x" (Val.int 5) (Fields.cons "y" (Val.list ValList.nil)
        (Fields.cons "z" (Val.int 0) Fields.nil)))
      = keysF (Fields.cons "x" Val.none (Fields.cons "y" (Val.list ValList.nil)
        (Fields.cons "z" (Val.int 0) Fields.nil))) ∧
    lookupF (Fields.cons "x" (Val.int 5) (Fields.cons "y" (Val.list ValList.nil)
        (Fields.cons "z" (Val.int 0) Fields.nil))) "y" = some (Val.list ValList.nil) ∧
    lookupF (Fields.cons "x" (Val.int 5) (Fields.cons "y" (Val.list ValList.nil)
        (Fields.cons "z" (Val.int 0) Fields.nil))) "x" = some (Val.int 5) := by
  have h := c6_populate_null_only
    (Fields.cons "x" (Val.int 5) (Fields.cons "y"
      (Val.list (ValList.cons (Val.int 1) ValList.nil))
      (Fields.cons "z" (Val.int 9) Fields.nil)))
    (Fields.cons "x" Val.none (Fields.cons "y" (Val.list ValList.nil)
      (Fields.cons "z" (Val.int 0) Fields.nil)))
    false
    (Fields.cons "x" (Val.int 5) (Fields.cons "y" (Val.list ValList.nil)
      (Fields.cons "z" (Val.int 0) Fields.nil)))
    (by decide) rfl
  exact ⟨h.1, h.2.1 "y" (Val.list ValList.nil) rfl (by decide),
    h.2.2 "x" rfl⟩

/-- C2 counterexample: decoding a mapping with an unknown key whose
value is a non-empty list against `safe=True` raises `KeyError` — the
key enters the assignment branch through the `isinstance(v, list)`
disjunct and `z[k]` fails — so "safe=True does not raise, the unknown
key is skipped regardless of its value" is false as stated. -/
theorem c2_counterexample :
    from_dict [] (PyClass.mk "E" Fields.nil [])
        (Val.dict (Fields.cons "x" (Val.list (ValList.cons (Val.int 1) ValList.nil))
          Fields.nil)) true
      = Except.error (PyErr.keyError "x") := rfl

/-- C2 (amended): for an unknown key, `safe=False` raises
`AttributeError` in all three of `from_dict`, `from_dict_api` and
`populate_from_dict`.  With `safe=True`, `from_dict_api` and
`populate_from_dict` always skip the key; `from_dict` skips it only when
its value is not a list — a list value still enters the assignment
branch, where an empty list is assigned to the unknown key and a
non-empty list raises `KeyError` at the field-type lookup when the key
has no dataclass field entry. -/
theorem c2_amended (cat : Catalog) (cls : PyClass) (k : String) (v h : Val) (ht : ValList)
    (tl F fs : Fields) :
    (lookupF cls.defaults k = Option.none →
        from_dict cat cls (Val.dict (Fields.cons k v tl)) false
          = Except.error (PyErr.attributeError k)) ∧
    (lookupF cls.defaults k = Option.none →
        from_dict_api cls (Val.dict (Fields.cons k v tl)) false
          = Except.error (PyErr.attributeError k)) ∧
    (lookupF fs k = Option.none →
        populate_from_dict fs (Fields.cons k v tl) false
          = Except.error (PyErr.attributeError k)) ∧
    (lookupF F k = Option.none → isListB v = false →
        fromDictLoop cat cls (Fields.cons k v tl) true F = fromDictLoop cat cls tl true F) ∧
    (lookupF F k = Option.none →
        fromDictApiLoop cls (Fields.cons k v tl) true F = fromDictApiLoop cls tl true F) ∧
    (lookupF fs k = Option.none →
        populate_from_dict fs (Fields.cons k v tl) true = populate_from_dict fs tl true) ∧
    (lookupF F k = Option.none →
        fromDictLoop cat cls (Fields.cons k (Val.list ValList.nil) tl) true F
          = fromDictLoop cat cls tl true (setattrF F k (Val.list ValList.nil))) ∧
    (lookupF F k = Option.none → lookupT cls.ftypes k = Option.none →
        fromDictLoop cat cls (Fields.cons k (Val.list (ValList.cons h ht)) tl) true F
          = Except.error (PyErr.keyError k)) := by
  refine ⟨fun hn => ?_, fun hn => ?_, fun hn => ?_, fun hn hv => ?_, fun hn => ?_,
    fun hn => ?_, fun hn => ?_, fun hn hm => ?_⟩
  · exact from_dict_dict_err _ _ _ (fromDictLoop_notfound_raises _ _ _ _ _ _ hn)
  · exact from_dict_api_dict_err _ _ (fromDictApiLoop_notfound_raises _ _ _ _ _ hn)
  · exact populate_notfound_raises _ _ _ _ hn
  · exact fromDictLoop_notfound_safe_nonlist _ _ _ _ _ _ hn hv
  · exact fromDictApiLoop_notfound_safe _ _ _ _ _ hn
  · exact populate_notfound_safe _ _ _ _ hn
  · exact fromDictLoop_notfound_safe_empty_list _ _ _ _ _ hn
  · exact fromDictLoop_notfound_safe_list_nometa _ _ _ _ _ hn hm

/-- Witness for C2 (amended) at concrete inputs: an empty class decoding
`x = 1` with `safe=False` raises; with `safe=True` the non-list key is
skipped; a non-empty-list key raises `KeyError` even with `safe=True`. -/
theorem c2_witness :
    from_dict [] (PyClass.mk "E" Fields.nil [])
        (Val.dict (Fields.cons "x" (Val.int 1) Fields.nil)) false
      = Except.error (PyErr.attributeError "x") ∧
    fromDictLoop [] (PyClass.mk "E" Fields.nil [])
        (Fields.cons "x" (Val.int 1) Fields.nil) true Fields.nil
      = fromDictLoop [] (PyClass.mk "E" Fields.nil []) Fields.nil true Fields.nil ∧
    fromDictLoop [] (PyClass.mk "E" Fields.nil [])
        (Fields.cons "x" (Val.list (ValList.cons (Val.int 1) ValList.nil)) Fields.nil)
        true Fields.nil
      = Except.error (PyErr.keyError "x") := by
  have h := c2_amended [] (PyClass.mk "E" Fields.nil []) "x" (Val.int 1) (Val.int 1)
    ValList.nil Fields.nil Fields.nil Fields.nil
  exact ⟨h.1 rfl, h.2.2.2.1 rfl rfl, h.2.2.2.2.2.2.2 rfl rfl⟩

/-- C3 counterexample: with existing value `x = 3` (neither null, empty
list, nor model) and incoming `x = [1]`, strict `from_dict` enters its
assignment branch (and assigns the list), while `from_dict_api` skips
the key — so "from_dict_api enters its assignment branch exactly when
from_dict would (… or the incoming value is a list)" is false. -/
theorem c3_counterexample :
    from_dict [] (PyClass.mk "C" (Fields.cons "x" (Val.int 3) Fields.nil) [("x", "List[int]")])
        (Val.dict (Fields.cons "x" (Val.list (ValList.cons (Val.int 1) ValList.nil))
          Fields.nil)) false
      = Except.ok (Val.model "C" (Fields.cons "x" (Val.int 3) Fields.nil) [("x", "List[int]")]
          (Fields.cons "x" (Val.list (ValList.cons (Val.int 1) ValList.nil)) Fields.nil)) ∧
    from_dict_api (PyClass.mk "C" (Fields.cons "x" (Val.int 3) Fields.nil) [("x", "List[int]")])
        (Val.dict (Fields.cons "x" (Val.list (ValList.cons (Val.int 1) ValList.nil))
          Fields.nil)) false
      = Except.ok (Val.model "C" (Fields.cons "x" (Val.int 3) Fields.nil) [("x", "List[int]")]
          (Fields.cons "x" (Val.int 3) Fields.nil)) :=
  ⟨rfl, rfl⟩

/-- C3 (amended): `from_dict_api` enters its assignment branch exactly
when the existing value is `None`, the empty list, or a nested model —
the strict decoder's extra "incoming value is a list" disjunct is
absent.  When it does assign a non-model-targeted value it assigns it
as-is, with no metadata lookup; when the existing value fails the test,
the key is skipped for every incoming value, and in the particular case
of an incoming list the strict decoder assigns while the permissive one
skips. -/
theorem c3_amended (cls : PyClass) (k : String) (v inner : Val) (tl F : Fields) (safe : Bool)
    (hl : lookupF F k = some inner) :
    (isNoneOrEmptyList inner = false → isModelB inner = false →
        fromDictApiLoop cls (Fields.cons k v tl) safe F = fromDictApiLoop cls tl safe F) ∧
    (isNoneOrEmptyList inner = true →
        fromDictApiLoop cls (Fields.cons k v tl) safe F
          = fromDictApiLoop cls tl safe (setattrF F k v)) ∧
    (∀ (cat : Catalog) (h : Val) (ht : ValList) (t nm : String),
        isNoneOrEmptyList inner = false → isModelB inner = false →
        lookupT cls.ftypes k = some t → elemTypeName t = some nm →
        isTerra (qualify nm) = false →
        fromDictLoop cat cls (Fields.cons k (Val.list (ValList.cons h ht)) tl) safe F
          = fromDictLoop cat cls tl safe (setattrF F k (Val.list (ValList.cons h ht))) ∧
        fromDictApiLoop cls (Fields.cons k (Val.list (ValList.cons h ht)) tl) safe F
          = fromDictApiLoop cls tl safe F) := by
  refine ⟨fun h1 h2 => ?_, fun h1 => ?_, fun cat h ht t nm h1 h2 hm he hq => ⟨?_, ?_⟩⟩
  · exact fromDictApiLoop_skip _ _ _ _ _ _ hl h1 h2
  · exact fromDictApiLoop_assign _ _ _ _ _ _ hl h1
  · exact fromDictLoop_list_passthrough _ _ _ _ _ _ hl h2 hm he hq
  · exact fromDictApiLoop_skip _ _ _ _ _ _ hl h1 h2

/-- Witness for C3 (amended) at a concrete input: existing `x = 3`,
incoming `x = [1]`; the permissive loop skips while the strict loop
assigns the list. -/
theorem c3_witness :
    fromDictLoop [] (PyClass.mk "C" (Fields.cons "x" (Val.int 3) Fields.nil) [("x", "List[int]")])
        (Fields.cons "x" (Val.list (ValList.cons (Val.int 1) ValList.nil)) Fields.nil) false
        (Fields.cons "x" (Val.int 3) Fields.nil)
      = fromDictLoop [] (PyClass.mk "C" (Fields.cons "x" (Val.int 3) Fields.nil)
          [("x", "List[int]")]) Fields.nil false
          (Fields.cons "x" (Val.list (ValList.cons (Val.int 1) ValList.nil)) Fields.nil) ∧
    fromDictApiLoop (PyClass.mk "C" (Fields.cons "x" (Val.int 3) Fields.nil) [("x", "List[int]")])
        (Fields.cons "x" (Val.list (ValList.cons (Val.int 1) ValList.nil)) Fields.nil) false
        (Fields.cons "x" (Val.int 3) Fields.nil)
      = fromDictApiLoop (PyClass.mk "C" (Fields.cons "x" (Val.int 3) Fields.nil)
          [("x", "List[int]")]) Fields.nil false (Fields.cons "x" (Val.int 3) Fields.nil) := by
  have h := (c3_amended (PyClass.mk "C" (Fields.cons "x" (Val.int 3) Fields.nil)
    [("x", "List[int]")]) "x" (Val.int 0) (Val.int 3) Fields.nil
    (Fields.cons "x" (Val.int 3) Fields.nil) false rfl).2.2
    [] (Val.int 1) ValList.nil "List[int]" "int" rfl rfl rfl rfl rfl
  exact h

/-- C4 counterexample: a strict decode of a non-empty list whose
declared element type qualifies into the `terra` namespace but does not
resolve in the catalog raises `TypeError` (calling the `None` that
`pydoc.locate` returned) — it does not pass the list through. -/
theorem c4_counterexample :
    from_dict [] (PyClass.mk "D" (Fields.cons "x" Val.none Fields.nil)
        [("x", "List[models.Nope]")])
        (Val.dict (Fields.cons "x"
          (Val.list (ValList.cons (Val.dict Fields.nil) ValList.nil)) Fields.nil)) false
      = Except.error PyErr.typeError := rfl

/-- C4 (amended): in a strict decode of a non-empty list, when the
extracted element-type name does not (after `models.` -> `terra.models.`
qualification) start with the `terra` package segment, the list is
passed through unchanged; when it does start with `terra` but fails to
resolve in the catalog, the call raises `TypeError` instead of passing
through. -/
theorem c4_amended (cat : Catalog) (cls : PyClass) (k : String) (tl F : Fields) (safe : Bool)
    (d h : Val) (ht : ValList) (t nm : String)
    (hl : lookupF F k = some d) (h2 : isModelB d = false)
    (hm : lookupT cls.ftypes k = some t) (he : elemTypeName t = some nm) :
    (isTerra (qualify nm) = false →
        fromDictLoop cat cls (Fields.cons k (Val.list (ValList.cons h ht)) tl) safe F
          = fromDictLoop cat cls tl safe (setattrF F k (Val.list (ValList.cons h ht)))) ∧
    (isTerra (qualify nm) = true → catLookup cat (qualify nm) = Option.none →
        fromDictLoop cat cls (Fields.cons k (Val.list (ValList.cons h ht)) tl) safe F
          = Except.error PyErr.typeError) := by
  refine ⟨fun hq => ?_, fun hq hc => ?_⟩
  · exact fromDictLoop_list_passthrough _ _ _ _ _ _ hl h2 hm he hq
  · exact fromDictLoop_list_unresolved _ _ _ _ _ _ hl h2 hm he hq hc

/-- Witness for C4 (amended) at concrete inputs: element type `int`
passes the list through; element type `models.Nope` (unresolvable)
raises `TypeError`. -/
theorem c4_witness :
    fromDictLoop [] (PyClass.mk "D" (Fields.cons "x" Val.none Fields.nil) [("x", "List[int]")])
        (Fields.cons "x" (Val.list (ValList.cons (Val.int 7) ValList.nil)) Fields.nil) false
        (Fields.cons "x" Val.none Fields.nil)
      = fromDictLoop [] (PyClass.mk "D" (Fields.cons "x" Val.none Fields.nil)
          [("x", "List[int]")]) Fields.nil false
          (Fields.cons "x" (Val.list (ValList.cons (Val.int 7) ValList.nil)) Fields.nil) ∧
    fromDictLoop [] (PyClass.mk "D" (Fields.cons "x" Val.none Fields.nil)
        [("x", "List[models.Nope]")])
        (Fields.cons "x" (Val.list (ValList.cons (Val.dict Fields.nil) ValList.nil)) Fields.nil)
        false (Fields.cons "x" Val.none Fields.nil)
      = Except.error PyErr.typeError := by
  refine ⟨?_, ?_⟩
  · exact (c4_amended [] (PyClass.mk "D" (Fields.cons "x" Val.none Fields.nil)
      [("x", "List[int]")]) "x" Fields.nil (Fields.cons "x" Val.none Fields.nil) false
      Val.none (Val.int 7) ValList.nil "List[int]" "int" rfl rfl rfl rfl).1 rfl
  · exact (c4_amended [] (PyClass.mk "D" (Fields.cons "x" Val.none Fields.nil)
      [("x", "List[models.Nope]")]) "x" Fields.nil (Fields.cons "x" Val.none Fields.nil) false
      Val.none (Val.dict Fields.nil) ValList.nil "List[models.Nope]" "models.Nope"
      rfl rfl rfl rfl).2 rfl rfl

/-- C8 counterexample: the outer class's default for `n` is an `I`
instance whose current `a` is `7` (while class `I`'s default for `a` is
`0`).  Decoding `{"n": {}}` does not decode into that existing
instance: `from_dict` is a classmethod, so a fresh `I()` is built and
the absent field `a` comes out as the class default `0`, not the
pre-existing `7` the claim requires. -/
theorem c8_counterexample :
    from_dict [] (PyClass.mk "O" (Fields.cons "n" (Val.model "I"
        (Fields.cons "a" (Val.int 0) Fields.nil) [] (Fields.cons "a" (Val.int 7) Fields.nil))
        Fields.nil) [])
        (Val.dict (Fields.cons "n" (Val.dict Fields.nil) Fields.nil)) false
      = Except.ok (Val.model "O" (Fields.cons "n" (Val.model "I"
          (Fields.cons "a" (Val.int 0) Fields.nil) [] (Fields.cons "a" (Val.int 7) Fields.nil))
          Fields.nil) []
          (Fields.cons "n" (Val.model "I" (Fields.cons "a" (Val.int 0) Fields.nil) []
            (Fields.cons "a" (Val.int 0) Fields.nil)) Fields.nil)) ∧
    from_dict [] (PyClass.mk "O" (Fields.cons "n" (Val.model "I"
        (Fields.cons "a" (Val.int 0) Fields.nil) [] (Fields.cons "a" (Val.int 7) Fields.nil))
        Fields.nil) [])
        (Val.dict (Fields.cons "n" (Val.dict Fields.nil) Fields.nil)) false
      ≠ Except.ok (Val.model "O" (Fields.cons "n" (Val.model "I"
          (Fields.cons "a" (Val.int 0) Fields.nil) [] (Fields.cons "a" (Val.int 7) Fields.nil))
          Fields.nil) []
          (Fields.cons "n" (Val.model "I" (Fields.cons "a" (Val.int 0) Fields.nil) []
            (Fields.cons "a" (Val.int 7) Fields.nil)) Fields.nil)) :=
  ⟨rfl, by decide⟩

/-- C8 (amended): when the existing attribute value is a nested-model
instance, the incoming value is decoded through the existing value's
class into a fresh instance (classmethod semantics): the decode of an
empty mapping yields the class's default fields, regardless of the
existing instance's current field values, so fields absent from the
incoming mapping take class defaults, not the pre-existing values. -/
theorem c8_amended (cat : Catalog) (cls : PyClass) (k : String) (v : Val) (tl F : Fields)
    (safe : Bool) (cn : String) (dfs : Fields) (fts : List (String × String)) (dmfs : Fields)
    (hl : lookupF F k = some (Val.model cn dfs fts dmfs)) :
    (∀ v2, from_dict cat (PyClass.mk cn dfs fts) v false = Except.ok v2 →
        fromDictLoop cat cls (Fields.cons k v tl) safe F
          = fromDictLoop cat cls tl safe (setattrF F k v2)) ∧
    (∀ e, from_dict cat (PyClass.mk cn dfs fts) v false = Except.error e →
        fromDictLoop cat cls (Fields.cons k v tl) safe F = Except.error e) ∧
    from_dict cat (PyClass.mk cn dfs fts) (Val.dict Fields.nil) false
      = Except.ok (Val.model cn dfs fts dfs) := by
  refine ⟨fun v2 hd => ?_, fun e hd => ?_, ?_⟩
  · exact fromDictLoop_model_ok _ _ _ _ _ _ _ hl hd
  · exact fromDictLoop_model_err _ _ _ _ _ _ _ hl hd
  · exact from_dict_dict_ok _ _ _ (fromDictLoop_nil _ _ _ _)

/-- Witness for C8 (amended) at a concrete input: the nested `I` slot
holds `a = 7`, but decoding `{}` through it produces the fresh defaults
`a = 0`. -/
theorem c8_witness :
    fromDictLoop [] (PyClass.mk "O" Fields.nil [])
        (Fields.cons "n" (Val.dict Fields.nil) Fields.nil) false
        (Fields.cons "n" (Val.model "I" (Fields.cons "a" (Val.int 0) Fields.nil) []
          (Fields.cons "a" (Val.int 7) Fields.nil)) Fields.nil)
      = fromDictLoop [] (PyClass.mk "O" Fields.nil []) Fields.nil false
          (Fields.cons "n" (Val.model "I" (Fields.cons "a" (Val.int 0) Fields.nil) []
            (Fields.cons "a" (Val.int 0) Fields.nil)) Fields.nil) ∧
    from_dict [] (PyClass.mk "I" (Fields.cons "a" (Val.int 0) Fields.nil) [])
        (Val.dict Fields.nil) false
      = Except.ok (Val.model "I" (Fields.cons "a" (Val.int 0) Fields.nil) []
          (Fields.cons "a" (Val.int 0) Fields.nil)) := by
  have h := c8_amended [] (PyClass.mk "O" Fields.nil []) "n" (Val.dict Fields.nil)
    Fields.nil
    (Fields.cons "n" (Val.model "I" (Fields.cons "a" (Val.int 0) Fields.nil) []
      (Fields.cons "a" (Val.int 7) Fields.nil)) Fields.nil)
    false "I" (Fields.cons "a" (Val.int 0) Fields.nil) [] (Fields.cons "a" (Val.int 7) Fields.nil)
    rfl
  exact ⟨h.1 (Val.model "I" (Fields.cons "a" (Val.int 0) Fields.nil) []
    (Fields.cons "a" (Val.int 0) Fields.nil)) rfl, h.2.2⟩

/-- C10: the `safe` flag is never propagated into recursion: the
recursive decodes for a nested-model attribute (strict and permissive)
and for each element of a resolved list run with `safe=False`, so with
the outer call at `safe=True` an unknown key inside the nested mapping
still raises `AttributeError`. -/
theorem c10_safe_not_propagated (cat : Catalog) (cls : PyClass) (k k2 : String) (v2 : Val)
    (tl F : Fields) :
    (∀ (cn : String) (dfs : Fields) (fts : List (String × String)) (dmfs : Fields),
        lookupF F k = some (Val.model cn dfs fts dmfs) →
        lookupF dfs k2 = Option.none →
        fromDictLoop cat cls (Fields.cons k (Val.dict (Fields.cons k2 v2 Fields.nil)) tl)
            true F
          = Except.error (PyErr.attributeError k2)) ∧
    (∀ (d : Val) (t nm : String) (icls : PyClass),
        lookupF F k = some d → isModelB d = false →
        lookupT cls.ftypes k = some t → elemTypeName t = some nm →
        isTerra (qualify nm) = true → catLookup cat (qualify nm) = some icls →
        lookupF icls.defaults k2 = Option.none →
        fromDictLoop cat cls (Fields.cons k
            (Val.list (ValList.cons (Val.dict (Fields.cons k2 v2 Fields.nil)) ValList.nil)) tl)
            true F
          = Except.error (PyErr.attributeError k2)) ∧
    (∀ (cn : String) (dfs : Fields) (fts : List (String × String)) (dmfs : Fields),
        lookupF F k = some (Val.model cn dfs fts dmfs) →
        lookupF dfs k2 = Option.none →
        fromDictApiLoop cls (Fields.cons k (Val.dict (Fields.cons k2 v2 Fields.nil)) tl)
            true F
          = Except.error (PyErr.attributeError k2)) := by
  refine ⟨fun cn dfs fts dmfs hl him => ?_, fun d t nm icls hl h2 hm he hq hc him => ?_,
    fun cn dfs fts dmfs hl him => ?_⟩
  · exact fromDictLoop_model_err _ _ _ _ _ _ _ hl
      (from_dict_dict_err _ _ _ (fromDictLoop_notfound_raises _ _ _ _ _ _ him))
  · exact fromDictLoop_list_resolve_err _ _ _ _ _ _ hl h2 hm he hq hc
      (fromDictEach_cons_err _
        (from_dict_dict_err _ _ _ (fromDictLoop_notfound_raises _ _ _ _ _ _ him)))
  · exact fromDictApiLoop_model_err _ _ _ _ _ _ hl
      (from_dict_api_dict_err _ _ (fromDictApiLoop_notfound_raises _ _ _ _ _ him))

/-- Witness for C10 at a concrete input: outer decode at `safe=True`
still raises `AttributeError` for the unknown key `u` inside the nested
mapping and inside a resolved list element. -/
theorem c10_witness :
    fromDictLoop [] (PyClass.mk "O" Fields.nil [])
        (Fields.cons "n" (Val.dict (Fields.cons "u" (Val.int 1) Fields.nil)) Fields.nil) true
        (Fields.cons "n" (Val.model "I" Fields.nil [] Fields.nil) Fields.nil)
      = Except.error (PyErr.attributeError "u") ∧
    fromDictLoop [("terra.models.I", PyClass.mk "terra.models.I" Fields.nil [])]
        (PyClass.mk "O" Fields.nil [("xs", "List[models.I]")])
        (Fields.cons "xs" (Val.list (ValList.cons
          (Val.dict (Fields.cons "u" (Val.int 1) Fields.nil)) ValList.nil)) Fields.nil) true
        (Fields.cons "xs" Val.none Fields.nil)
      = Except.error (PyErr.attributeError "u") := by
  refine ⟨?_, ?_⟩
  · exact (c10_safe_not_propagated [] (PyClass.mk "O" Fields.nil []) "n" "u" (Val.int 1)
      Fields.nil (Fields.cons "n" (Val.model "I" Fields.nil [] Fields.nil) Fields.nil)).1
      "I" Fields.nil [] Fields.nil rfl rfl
  · exact (c10_safe_not_propagated [("terra.models.I", PyClass.mk "terra.models.I" Fields.nil [])]
      (PyClass.mk "O" Fields.nil [("xs", "List[models.I]")]) "xs" "u" (Val.int 1)
      Fields.nil (Fields.cons "xs" Val.none Fields.nil)).2.1
      Val.none "List[models.I]" "models.I" (PyClass.mk "terra.models.I" Fields.nil [])
      rfl rfl rfl rfl rfl rfl rfl

/-- C5: encoding an attribute holding a list passes the list through
unchanged when it is empty or its first element's runtime type is
primitive — even if later elements are models — and otherwise encodes
every element with `.to_dict()` (`encodeElems`), collecting into a new
list on success and propagating the element failure otherwise. -/
theorem c5_list_encode (k : String) (xs : ValList) (tl : Fields) :
    (isEmptyOrPrimHead xs = true → ∀ rest, to_dict tl = Except.ok rest →
        to_dict (Fields.cons k (Val.list xs) tl)
          = Except.ok (Fields.cons k (Val.list xs) rest)) ∧
    (isEmptyOrPrimHead xs = false → ∀ ds rest, encodeElems xs = Except.ok ds →
        to_dict tl = Except.ok rest →
        to_dict (Fields.cons k (Val.list xs) tl)
          = Except.ok (Fields.cons k (Val.list ds) rest)) ∧
    (isEmptyOrPrimHead xs = false → ∀ e, encodeElems xs = Except.error e →
        to_dict (Fields.cons k (Val.list xs) tl) = Except.error e) := by
  refine ⟨fun hp rest ht => ?_, fun hp ds rest hx ht => ?_, fun hp e hx => ?_⟩
  · exact to_dict_cons_ok (encodeAttr_list_pass hp) ht
  · exact to_dict_cons_ok (encodeAttr_list_elems hp hx) ht
  · exact to_dict_cons_err (encodeAttr_list_elems_err hp hx)

/-- Witness for C5 at concrete inputs: the mixed list `[1, I()]` with a
primitive head passes through unchanged; the model-headed list
`[I(a=7)]` is encoded element-wise. -/
theorem c5_witness :
    to_dict (Fields.cons "xs" (Val.list (ValList.cons (Val.int 1)
        (ValList.cons (Val.model "I" Fields.nil [] Fields.nil) ValList.nil))) Fields.nil)
      = Except.ok (Fields.cons "xs" (Val.list (ValList.cons (Val.int 1)
          (ValList.cons (Val.model "I" Fields.nil [] Fields.nil) ValList.nil))) Fields.nil) ∧
    to_dict (Fields.cons "xs" (Val.list (ValList.cons (Val.model "I" Fields.nil []
        (Fields.cons "a" (Val.int 7) Fields.nil)) ValList.nil)) Fields.nil)
      = Except.ok (Fields.cons "xs" (Val.list (ValList.cons
          (Val.dict (Fields.cons "a" (Val.int 7) Fields.nil)) ValList.nil)) Fields.nil) := by
  refine ⟨?_, ?_⟩
  · exact (c5_list_encode "xs" (ValList.cons (Val.int 1)
      (ValList.cons (Val.model "I" Fields.nil [] Fields.nil) ValList.nil)) Fields.nil).1
      rfl Fields.nil rfl
  · exact (c5_list_encode "xs" (ValList.cons (Val.model "I" Fields.nil []
      (Fields.cons "a" (Val.int 7) Fields.nil)) ValList.nil) Fields.nil).2.1
      rfl (ValList.cons (Val.dict (Fields.cons "a" (Val.int 7) Fields.nil)) ValList.nil)
      Fields.nil rfl rfl

lemma toDictS_agree_all : ∀ n : Nat,
    (∀ v : Val, sizeOf v ≤ n →
        encodeAttrS v = Except.map (fun e => (e, v)) (encodeAttr v)) ∧
    (∀ xs : ValList, sizeOf xs ≤ n →
        encodeElemsS xs = Except.map (fun ds => (ds, xs)) (encodeElems xs)) ∧
    (∀ fs : Fields, sizeOf fs ≤ n →
        to_dictS fs = Except.map (fun out => (out, fs)) (to_dict fs)) := by
  intro n
  induction n using Nat.strong_induction_on with
  | _ n ih =>
    refine ⟨?_, ?_, ?_⟩
    · intro v hv
      cases v with
      | list xs =>
          have hm : sizeOf xs < n := by
            have := Val.list.sizeOf_spec xs; omega
          have hih := (ih (sizeOf xs) hm).2.1 xs le_rfl
          rw [encodeAttrS.eq_def, encodeAttr.eq_def]
          by_cases hp : isEmptyOrPrimHead xs = true
          · simp [hp, Except.map]
          · cases hx : encodeElems xs <;> simp [hp, hx, hih, Except.map]
      | model cn dfs fts mfs =>
          have hm : sizeOf mfs < n := by
            have := Val.model.sizeOf_spec cn dfs fts mfs; omega
          have hih := (ih (sizeOf mfs) hm).2.2 mfs le_rfl
          rw [encodeAttrS.eq_def, encodeAttr.eq_def]
          cases hx : to_dict mfs <;> simp [hx, hih, Except.map]
      | _ => rw [encodeAttrS.eq_def, encodeAttr.eq_def] ; simp [Except.map]
    · intro xs hxs
      cases xs with
      | nil => rw [encodeElemsS.eq_def]; simp [Except.map]
      | cons x tl =>
          have h2 : sizeOf tl < n := by
            have := ValList.cons.sizeOf_spec x tl; omega
          have hih2 := (ih (sizeOf tl) h2).2.1 tl le_rfl
          rw [encodeElemsS.eq_def, encodeElems.eq_def]
          cases x with
          | model cn dfs fts mfs =>
              have hm : sizeOf mfs < n := by
                have := Val.model.sizeOf_spec cn dfs fts mfs
                have := ValList.cons.sizeOf_spec (Val.model cn dfs fts mfs) tl
                omega
              have hihm := (ih (sizeOf mfs) hm).2.2 mfs le_rfl
              cases hx : to_dict mfs with
              | ok d => cases hr : encodeElems tl <;> simp [hx, hr, hihm, hih2, Except.map]
              | error e => simp [hx, hihm, Except.map]
          | _ => simp [Except.map]
    · intro fs hfs
      cases fs with
      | nil => rw [to_dictS.eq_def]; simp [Except.map]
      | cons k val tl =>
          have h1 : sizeOf val < n := by
            have := Fields.cons.sizeOf_spec k val tl; omega
          have h2 : sizeOf tl < n := by
            have := Fields.cons.sizeOf_spec k val tl; omega
          have hih1 := (ih (sizeOf val) h1).1 val le_rfl
          have hih2 := (ih (sizeOf tl) h2).2.2 tl le_rfl
          rw [to_dictS.eq_def, to_dict.eq_def]
          cases hx : encodeAttr val with
          | ok e => cases hr : to_dict tl <;> simp [hx, hr, hih1, hih2, Except.map]
          | error e => simp [hx, hih1, Except.map]

/-- C9: `to_dict` never mutates the instance it is called on: the
heap-faithful state-threaded encoder `to_dictS`, which returns the
attribute state of the instance (nested models and list elements
included) alongside the encoding, returns exactly the input state and
agrees with the pure `to_dict` — on failure too, nothing has been
written. -/
theorem c9_to_dict_no_mutation (fs : Fields) :
    to_dictS fs = Except.map (fun out => (out, fs)) (to_dict fs) :=
  (toDictS_agree_all (sizeOf fs)).2.2 fs le_rfl

@[simp] lemma pyEq_model_model (cn1 cn2 : String) (d1 d2 : Fields)
    (f1 f2 : List (String × String)) (fs1 fs2 : Fields) :
    pyEq (Val.model cn1 d1 f1 fs1) (Val.model cn2 d2 f2 fs2)
      = (cn1 == cn2 && pyEqFields fs1 fs2) := by
  rw [pyEq.eq_def]

@[simp] lemma pyEq_list_list (a b : ValList) :
    pyEq (Val.list a) (Val.list b) = pyEqList a b := by
  rw [pyEq.eq_def]

@[simp] lemma pyEq_int_enum (a b : Int) : pyEq (Val.int a) (Val.enum b) = (a == b) := by
  rw [pyEq.eq_def]

@[simp] lemma pyEqList_cons_cons (a b : Val) (as bs : ValList) :
    pyEqList (ValList.cons a as) (ValList.cons b bs) = (pyEq a b && pyEqList as bs) := by
  rw [pyEqList.eq_def]

@[simp] lemma pyEqFields_cons_cons (k1 k2 : String) (v1 v2 : Val) (tl1 tl2 : Fields) :
    pyEqFields (Fields.cons k1 v1 tl1) (Fields.cons k2 v2 tl2)
      = ((k1 == k2) && pyEq v1 v2 && pyEqFields tl1 tl2) := by
  rw [pyEqFields.eq_def]

/-- The round-trip goal for one class and instance state: encoding
succeeds, decoding the encoding into a fresh instance of the same class
succeeds, and the decoded instance state is Python-equal to the
original. -/
def RTGoal (cat : Catalog) (cls : PyClass) (fs : Fields) : Prop :=
  ∃ out fs2, to_dict fs = Except.ok out ∧
    from_dict cat cls (Val.dict out) false
      = Except.ok (Val.model cls.name cls.defaults cls.ftypes fs2) ∧
    pyEqFields fs2 fs = true

lemma roundtripElems (cat : Catalog) {n : Nat}
    (ih : ∀ (cls' : PyClass) (fs' : Fields), sizeOf fs' < n →
        rtFields cat cls' fs' = true → RTGoal cat cls' fs')
    (icls : PyClass) :
    ∀ xs : ValList, sizeOf xs ≤ n → rtElems cat icls xs = true →
      ∃ ds xs2, encodeElems xs = Except.ok ds ∧
        fromDictEach cat icls ds = Except.ok xs2 ∧ pyEqList xs2 xs = true := by
  intro xs
  induction xs with
  | nil => exact fun _ _ => ⟨ValList.nil, ValList.nil, by simp, by simp, by rw [pyEqList.eq_def]⟩
  | cons x xtl ihx =>
      intro hsz hrt
      rw [rtElems.eq_def] at hrt
      simp only [Bool.and_eq_true] at hrt
      obtain ⟨hhd, htl⟩ := hrt
      cases x with
      | model cn dfs fts efs =>
          simp only [Bool.and_eq_true, decide_eq_true_eq] at hhd
          obtain ⟨⟨⟨hcn, hdfs⟩, hfts⟩, ⟨hk1, hk2⟩, hk3⟩ := hhd
          subst hcn; subst hdfs; subst hfts
          have hrtf : rtFields cat icls efs = true := by
            simp only [rtFields, Bool.and_eq_true, decide_eq_true_eq]
            exact ⟨⟨hk1, hk2⟩, hk3⟩
          have hszefs : sizeOf efs < n := by
            have := Val.model.sizeOf_spec icls.name icls.defaults icls.ftypes efs
            have := ValList.cons.sizeOf_spec
              (Val.model icls.name icls.defaults icls.ftypes efs) xtl
            omega
          obtain ⟨outE, fsE, hE1, hE2, hE3⟩ := ih icls efs hszefs hrtf
          have hsztl : sizeOf xtl ≤ n := by
            have := ValList.cons.sizeOf_spec
              (Val.model icls.name icls.defaults icls.ftypes efs) xtl
            omega
          obtain ⟨dsT, xsT, hT1, hT2, hT3⟩ := ihx hsztl htl
          refine ⟨ValList.cons (Val.dict outE) dsT,
            ValList.cons (Val.model icls.name icls.defaults icls.ftypes fsE) xsT,
            encodeElems_cons_model_ok hE1 hT1, fromDictEach_cons_ok _ hE2 hT2, ?_⟩
          simp [hE3, hT3]
      | none => simp at hhd
      | str s => simp at hhd
      | int m => simp at hhd
      | bool b => simp at hhd
      | float b => simp at hhd
      | enum m => simp at hhd
      | dict m => simp at hhd
      | list ys => simp at hhd

lemma keysF_eq_nil {dR : Fields} (h : keysF dR = []) : dR = Fields.nil := by
  cases dR with
  | nil => rfl
  | cons k v tl => simp at h

lemma roundtripLoop (cat : Catalog) {n : Nat}
    (ih : ∀ (cls' : PyClass) (fs' : Fields), sizeOf fs' < n →
        rtFields cat cls' fs' = true → RTGoal cat cls' fs') :
    ∀ (fsR : Fields) (cls : PyClass) (dR pre : Fields),
      sizeOf fsR ≤ n →
      keysF dR = keysF fsR →
      (keysF fsR).Nodup →
      (∀ k, k ∈ keysF fsR → lookupF cls.defaults k = lookupF dR k) →
      (∀ k, k ∈ keysF fsR → k ∉ keysF pre) →
      rtAll cat cls fsR = true →
      ∃ out F2, to_dict fsR = Except.ok out ∧
        fromDictLoop cat cls out false (appendF pre dR) = Except.ok (appendF pre F2) ∧
        pyEqFields F2 fsR = true := by
  intro fsR
  induction fsR with
  | nil =>
      intro cls dR pre hsz hkeys hnd hdef hpre hrt
      have hdR : dR = Fields.nil := keysF_eq_nil (by simpa using hkeys)
      subst hdR
      exact ⟨Fields.nil, Fields.nil, by simp, by simp, by rw [pyEqFields.eq_def]⟩
  | cons k val tlR ihl =>
      intro cls dR pre hsz hkeys hnd hdef hpre hrt
      cases dR with
      | nil => simp at hkeys
      | cons kd d dtl =>
      simp only [keysF_cons, List.cons.injEq] at hkeys
      obtain ⟨hkd, hkeystl⟩ := hkeys
      subst kd
      rw [rtAll.eq_def] at hrt
      simp only [Bool.and_eq_true] at hrt
      obtain ⟨hfd, hrtl⟩ := hrt
      have hkmem : k ∈ keysF (Fields.cons k val tlR) := by simp
      have hd0 : lookupF cls.defaults k = some d := by
        rw [hdef k hkmem]; exact lookupF_cons_self _ _ _
      have npre : k ∉ keysF pre := hpre k hkmem
      have hlook : lookupF (appendF pre (Fields.cons k d dtl)) k = some d := by
        rw [lookupF_appendF_of_not_mem _ npre]; exact lookupF_cons_self _ _ _
      have hknotin : k ∉ keysF tlR := by
        rw [keysF_cons, List.nodup_cons] at hnd; exact hnd.1
      have hndtl : (keysF tlR).Nodup := by
        rw [keysF_cons, List.nodup_cons] at hnd; exact hnd.2
      have hsztl : sizeOf tlR ≤ n := by
        have := Fields.cons.sizeOf_spec k val tlR; omega
      have hdeftl : ∀ k2, k2 ∈ keysF tlR → lookupF cls.defaults k2 = lookupF dtl k2 := by
        intro k2 hk2
        have hne : k ≠ k2 := fun he => hknotin (he ▸ hk2)
        rw [hdef k2 (by simp [hk2]), lookupF_cons, if_neg hne]
      have hcont : ∀ (e v2 : Val), encodeAttr val = Except.ok e → pyEq v2 val = true →
          (∀ out, fromDictLoop cat cls (Fields.cons k e out) false
              (appendF pre (Fields.cons k d dtl))
            = fromDictLoop cat cls out false
                (setattrF (appendF pre (Fields.cons k d dtl)) k v2)) →
          ∃ out F2, to_dict (Fields.cons k val tlR) = Except.ok out ∧
            fromDictLoop cat cls out false (appendF pre (Fields.cons k d dtl))
              = Except.ok (appendF pre F2) ∧
            pyEqFields F2 (Fields.cons k val tlR) = true := by
        intro e v2 henc hpy hstep
        have hsetattr : setattrF (appendF pre (Fields.cons k d dtl)) k v2
            = appendF pre (Fields.cons k v2 dtl) := by
          rw [setattrF_appendF_of_not_mem _ _ npre, setattrF_cons_self]
        have hpretl : ∀ k2, k2 ∈ keysF tlR →
            k2 ∉ keysF (appendF pre (Fields.cons k v2 Fields.nil)) := by
          intro k2 hk2
          have hne : k ≠ k2 := fun he => hknotin (he ▸ hk2)
          have : k2 ∉ keysF pre := hpre k2 (by simp [hk2])
          simp [keysF_appendF, this, Ne.symm hne]
        obtain ⟨outTl, F2x, htl, hloop2, hpyl⟩ :=
          ihl cls dtl (appendF pre (Fields.cons k v2 Fields.nil))
            hsztl hkeystl hndtl hdeftl hpretl hrtl
        refine ⟨Fields.cons k e outTl, Fields.cons k v2 F2x, to_dict_cons_ok henc htl, ?_, ?_⟩
        · rw [hstep outTl, hsetattr]
          have hass : appendF pre (Fields.cons k v2 dtl)
              = appendF (appendF pre (Fields.cons k v2 Fields.nil)) dtl := by
            rw [appendF_assoc]; rfl
          rw [hass, hloop2, appendF_assoc]
          rfl
        · simp [hpy, hpyl]
      cases val with
      | none => rw [rtField.eq_def] at hfd; simp at hfd
      | str s =>
          rw [rtField.eq_def, hd0] at hfd
          exact hcont (Val.str s) (Val.str s) (encodeAttr_prim rfl) (pyEq_refl _)
            (fun out => fromDictLoop_assign cat cls k (Val.str s) out _ false hlook hfd rfl)
      | int m =>
          rw [rtField.eq_def, hd0] at hfd
          exact hcont (Val.int m) (Val.int m) (encodeAttr_prim rfl) (pyEq_refl _)
            (fun out => fromDictLoop_assign cat cls k (Val.int m) out _ false hlook hfd rfl)
      | bool b =>
          rw [rtField.eq_def, hd0] at hfd
          exact hcont (Val.bool b) (Val.bool b) (encodeAttr_prim rfl) (pyEq_refl _)
            (fun out => fromDictLoop_assign cat cls k (Val.bool b) out _ false hlook hfd rfl)
      | float x =>
          rw [rtField.eq_def, hd0] at hfd
          exact hcont (Val.float x) (Val.float x) (encodeAttr_prim rfl) (pyEq_refl _)
            (fun out => fromDictLoop_assign cat cls k (Val.float x) out _ false hlook hfd rfl)
      | dict m =>
          rw [rtField.eq_def, hd0] at hfd
          exact hcont (Val.dict m) (Val.dict m) (encodeAttr_prim rfl) (pyEq_refl _)
            (fun out => fromDictLoop_assign cat cls k (Val.dict m) out _ false hlook hfd rfl)
      | enum m =>
          rw [rtField.eq_def, hd0] at hfd
          exact hcont (Val.int m) (Val.int m) (encodeAttr_enum m) (by simp)
            (fun out => fromDictLoop_assign cat cls k (Val.int m) out _ false hlook hfd rfl)
      | model cn dfs fts mfs =>
          rw [rtField.eq_def, hd0] at hfd
          cases d with
          | model cn2 dfs2 fts2 dmfs2 =>
              simp only [Bool.and_eq_true, decide_eq_true_eq] at hfd
              obtain ⟨⟨⟨hcn2, hdfs2⟩, hfts2⟩, ⟨hm1, hm2⟩, hm3⟩ := hfd
              subst cn2; subst dfs2; subst fts2
              have hrtm : rtFields cat (PyClass.mk cn dfs fts) mfs = true := by
                simp only [rtFields, Bool.and_eq_true, decide_eq_true_eq]
                exact ⟨⟨hm1, hm2⟩, hm3⟩
              have hszm : sizeOf mfs < n := by
                have := Fields.cons.sizeOf_spec k (Val.model cn dfs fts mfs) tlR
                have := Val.model.sizeOf_spec cn dfs fts mfs
                omega
              obtain ⟨outM, fsM, hM1, hM2, hM3⟩ := ih (PyClass.mk cn dfs fts) mfs hszm hrtm
              exact hcont (Val.dict outM) (Val.model cn dfs fts fsM)
                (encodeAttr_model_ok hM1) (by simp [hM3])
                (fun out => fromDictLoop_model_ok _ _ _ _ _ _ _ hlook hM2)
          | none => simp at hfd
          | str s2 => simp at hfd
          | int m2 => simp at hfd
          | bool b2 => simp at hfd
          | float x2 => simp at hfd
          | enum m2 => simp at hfd
          | dict m2 => simp at hfd
          | list ys2 => simp at hfd
      | list xs =>
          cases xs with
          | nil => rw [rtField.eq_def] at hfd; simp at hfd
          | cons h ht =>
          rw [rtField.eq_def, hd0] at hfd
          cases hm : lookupT cls.ftypes k with
          | none => rw [hm] at hfd; simp at hfd
          | some t =>
          rw [hm] at hfd
          have hfd2 : (!(isModelB d) &&
              (match elemTypeName t with
               | some nm =>
                   if isTerra (qualify nm) then
                     match catLookup cat (qualify nm) with
                     | some icls => rtElems cat icls (ValList.cons h ht)
                     | Option.none => false
                   else isPrimitiveType h
               | Option.none => false)) = true := hfd
          simp only [Bool.and_eq_true, Bool.not_eq_true'] at hfd2
          obtain ⟨hdm, hrest⟩ := hfd2
          cases he : elemTypeName t with
          | none => rw [he] at hrest; simp at hrest
          | some nm =>
          rw [he] at hrest
          have hrest1 : (if isTerra (qualify nm) then
              match catLookup cat (qualify nm) with
              | some icls => rtElems cat icls (ValList.cons h ht)
              | Option.none => false
            else isPrimitiveType h) = true := hrest
          by_cases hq : isTerra (qualify nm) = true
          · rw [hq] at hrest1
            have hrest2 : (match catLookup cat (qualify nm) with
                | some icls => rtElems cat icls (ValList.cons h ht)
                | Option.none => false) = true := hrest1
            cases hc : catLookup cat (qualify nm) with
            | none => rw [hc] at hrest2; simp at hrest2
            | some icls =>
            rw [hc] at hrest2
            have hrest3 : rtElems cat icls (ValList.cons h ht) = true := hrest2
            rw [rtElems.eq_def] at hrest3
            simp only [Bool.and_eq_true] at hrest3
            obtain ⟨hhd, htlE⟩ := hrest3
            cases h with
            | model cnH dfsH ftsH efsH =>
                simp only [Bool.and_eq_true, decide_eq_true_eq] at hhd
                obtain ⟨⟨⟨hcnH, hdfsH⟩, hftsH⟩, ⟨hE1', hE2'⟩, hE3'⟩ := hhd
                subst cnH; subst dfsH; subst ftsH
                have hrtfH : rtFields cat icls efsH = true := by
                  simp only [rtFields, Bool.and_eq_true, decide_eq_true_eq]
                  exact ⟨⟨hE1', hE2'⟩, hE3'⟩
                have hszH : sizeOf efsH < n := by
                  have := Fields.cons.sizeOf_spec k
                    (Val.list (ValList.cons
                      (Val.model icls.name icls.defaults icls.ftypes efsH) ht)) tlR
                  have := Val.list.sizeOf_spec (ValList.cons
                    (Val.model icls.name icls.defaults icls.ftypes efsH) ht)
                  have := ValList.cons.sizeOf_spec
                    (Val.model icls.name icls.defaults icls.ftypes efsH) ht
                  have := Val.model.sizeOf_spec icls.name icls.defaults icls.ftypes efsH
                  omega
                have hszT : sizeOf ht ≤ n := by
                  have := Fields.cons.sizeOf_spec k
                    (Val.list (ValList.cons
                      (Val.model icls.name icls.defaults icls.ftypes efsH) ht)) tlR
                  have := Val.list.sizeOf_spec (ValList.cons
                    (Val.model icls.name icls.defaults icls.ftypes efsH) ht)
                  have := ValList.cons.sizeOf_spec
                    (Val.model icls.name icls.defaults icls.ftypes efsH) ht
                  omega
                obtain ⟨outH, fsH, hH1, hH2, hH3⟩ := ih icls efsH hszH hrtfH
                obtain ⟨dsT, xsT, hT1, hT2, hT3⟩ := roundtripElems cat ih icls ht hszT htlE
                exact hcont
                  (Val.list (ValList.cons (Val.dict outH) dsT))
                  (Val.list (ValList.cons
                    (Val.model icls.name icls.defaults icls.ftypes fsH) xsT))
                  (encodeAttr_list_elems rfl (encodeElems_cons_model_ok hH1 hT1))
                  (by simp [hH3, hT3])
                  (fun out => fromDictLoop_list_resolve_ok _ _ _ _ _ _ hlook hdm hm he hq hc
                    (fromDictEach_cons_ok _ hH2 hT2))
            | none => simp at hhd
            | str s2 => simp at hhd
            | int m2 => simp at hhd
            | bool b2 => simp at hhd
            | float x2 => simp at hhd
            | enum m2 => simp at hhd
            | dict m2 => simp at hhd
            | list ys2 => simp at hhd
          · have hqf : isTerra (qualify nm) = false := by
              cases hqv : isTerra (qualify nm) with
              | true => exact absurd hqv hq
              | false => rfl
            rw [hqf] at hrest1
            have hrest2 : isPrimitiveType h = true := hrest1
            exact hcont (Val.list (ValList.cons h ht)) (Val.list (ValList.cons h ht))
              (encodeAttr_list_pass (by simp [isEmptyOrPrimHead, hrest2]))
              (pyEq_refl _)
              (fun out => fromDictLoop_list_passthrough _ _ _ _ _ _ hlook hdm hm he hqf)

lemma roundtripAux : ∀ (n : Nat) (cat : Catalog) (cls : PyClass) (fs : Fields),
    sizeOf fs ≤ n → rtFields cat cls fs = true → RTGoal cat cls fs := by
  intro n
  induction n using Nat.strong_induction_on with
  | _ n ihn =>
    intro cat cls fs hsz hrt
    have ih : ∀ (cls' : PyClass) (fs' : Fields), sizeOf fs' < n →
        rtFields cat cls' fs' = true → RTGoal cat cls' fs' := by
      intro cls' fs' hlt hrt'
      exact ihn (sizeOf fs') hlt cat cls' fs' le_rfl hrt'
    simp only [rtFields, Bool.and_eq_true, decide_eq_true_eq] at hrt
    obtain ⟨⟨hk1, hk2⟩, hk3⟩ := hrt
    obtain ⟨out, fs2, h1, h2, h3⟩ :=
      roundtripLoop cat ih fs cls cls.defaults Fields.nil hsz hk1.symm (hk1 ▸ hk2)
        (fun k _ => rfl) (fun k _ => by simp) hk3
    rw [appendF_nil] at h2
    exact ⟨out, fs2, h1, from_dict_dict_ok _ _ _ h2, h3⟩

/-- C1 (amended): the claim's hypothesis "all fields populated with
concrete values" is not enough — `rtFields` adds what the code forces:
the instance's attribute names coincide, in order and without
duplicates, with its class's declared attributes; a primitive- or
enum-valued attribute's class default is `None` or the empty list (a
non-null primitive default makes the decode loop silently keep the
default, and a model default crashes); a nested-model attribute's class
default is an instance of the same class, recursively round-trippable;
a list attribute has a declared type string whose bracketed element name
either stays outside the `terra` namespace with a primitive-headed list
(pass-through) or resolves in the catalog to the class of every element,
each recursively round-trippable.  Under `rtFields`, encode then strict
decode succeeds and yields an instance Python-equal (`==`, which
identifies an `IntEnum` member with its integer, as decoding produces)
to the original. -/
theorem c1_roundtrip (cat : Catalog) (cls : PyClass) (fs : Fields)
    (h : rtFields cat cls fs = true) :
    ∃ out fs2, to_dict fs = Except.ok out ∧
      from_dict cat cls (Val.dict out) false
        = Except.ok (Val.model cls.name cls.defaults cls.ftypes fs2) ∧
      pyEq (Val.model cls.name cls.defaults cls.ftypes fs2)
        (Val.model cls.name cls.defaults cls.ftypes fs) = true := by
  obtain ⟨out, fs2, h1, h2, h3⟩ := roundtripAux (sizeOf fs) cat cls fs le_rfl h
  exact ⟨out, fs2, h1, h2, by simp [h3]⟩

/-- C1 counterexample: an instance of class `A` (default `x = 5`) whose
only field holds the concrete value `x = 3` — no `None`, no empty list,
no mixed list.  Encoding yields `x = 3`, but decoding it into a fresh
`A` leaves the default `5` (the silent-skip predicate fails: the
existing value `5` is neither null, empty, nor a model, and `3` is not a
list), so the round trip is not structurally equal to the original. -/
theorem c1_counterexample :
    to_dict (Fields.cons "x" (Val.int 3) Fields.nil)
      = Except.ok (Fields.cons "x" (Val.int 3) Fields.nil) ∧
    from_dict [] (PyClass.mk "A" (Fields.cons "x" (Val.int 5) Fields.nil) [("x", "int")])
        (Val.dict (Fields.cons "x" (Val.int 3) Fields.nil)) false
      = Except.ok (Val.model "A" (Fields.cons "x" (Val.int 5) Fields.nil) [("x", "int")]
          (Fields.cons "x" (Val.int 5) Fields.nil)) ∧
    pyEq (Val.model "A" (Fields.cons "x" (Val.int 5) Fields.nil) [("x", "int")]
          (Fields.cons "x" (Val.int 5) Fields.nil))
        (Val.model "A" (Fields.cons "x" (Val.int 5) Fields.nil) [("x", "int")]
          (Fields.cons "x" (Val.int 3) Fields.nil)) = false :=
  ⟨rfl, rfl, by decide⟩

/-- Inner class for the C1 witness: `terra.models.v2.I` with one field
`a` defaulting to `None`. -/
def c1Icls : PyClass :=
  PyClass.mk "terra.models.v2.I" (Fields.cons "a" Val.none Fields.nil) [("a", "int")]

/-- Outer class for the C1 witness: a primitive field `p`, a nested `I`
field `n`, and a `typing.List[models.v2.I]` field `xs`. -/
def c1Ocls : PyClass :=
  PyClass.mk "terra.models.v2.O"
    (Fields.cons "p" Val.none
      (Fields.cons "n" (Val.model "terra.models.v2.I"
          (Fields.cons "a" Val.none Fields.nil) [("a", "int")]
          (Fields.cons "a" Val.none Fields.nil))
        (Fields.cons "xs" (Val.list ValList.nil) Fields.nil)))
    [("p", "str"), ("n", "I"), ("xs", "typing.List[models.v2.I]")]

/-- Catalog for the C1 witness. -/
def c1Cat : Catalog := [("terra.models.v2.I", c1Icls)]

/-- An `I` instance with `a = m` for the C1 witness. -/
def c1IInst (m : Int) : Val :=
  Val.model "terra.models.v2.I" (Fields.cons "a" Val.none Fields.nil) [("a", "int")]
    (Fields.cons "a" (Val.int m) Fields.nil)

/-- A fully populated `O` instance state for the C1 witness. -/
def c1Inst : Fields :=
  Fields.cons "p" (Val.str "hi")
    (Fields.cons "n" (c1IInst 4)
      (Fields.cons "xs" (Val.list (ValList.cons (c1IInst 5)
        (ValList.cons (c1IInst 6) ValList.nil))) Fields.nil))

/-- Witness for C1 (amended) at a concrete input: a two-level instance
with a string field, a populated nested model and a two-element list of
models is round-trippable and round-trips. -/
theorem c1_witness :
    rtFields c1Cat c1Ocls c1Inst = true ∧
    (∃ out fs2, to_dict c1Inst = Except.ok out ∧
      from_dict c1Cat c1Ocls (Val.dict out) false
        = Except.ok (Val.model c1Ocls.name c1Ocls.defaults c1Ocls.ftypes fs2) ∧
      pyEq (Val.model c1Ocls.name c1Ocls.defaults c1Ocls.ftypes fs2)
        (Val.model c1Ocls.name c1Ocls.defaults c1Ocls.ftypes c1Inst) = true) :=
  ⟨by decide, c1_roundtrip c1Cat c1Ocls c1Inst (by decide)⟩

end Terra
